import Mathlib

/-!
# Slimecraft world generation (src/index.js)

A shallow embedding of the voxel generation pipeline of `src/index.js`:
`smoothNoise`, `chooseBiome`, `getTreeVoxel`, `getVoxelID`, the
`worldDataNeeded` handler and the session palette built at startup.

Conventions of the embedding.

* JavaScript numbers are modelled by an ordered field `α` with a floor
  function; the arithmetic operators are the exact field operations.
  Instantiating `α` with `ℚ` gives an executable model, instantiating it with
  `ℝ` gives the ideal model in which `Math.sin`, `Math.cos` and `Math.sqrt`
  are the real functions (`realMath`).
* `Math.sin`, `Math.cos` and `Math.sqrt` are the fields of a record `JsMath`
  that every function takes as its first argument.
* Integer-valued numbers (voxel coordinates, `Math.floor` results, block
  ids) are `ℤ` and `ℕ`.
* `undefined` is `none`.  A function that may throw a `TypeError` (reading a
  property of `undefined`) returns `Option`, with `none` for the throw.
* Overflow to `Infinity` and `NaN` are modelled where a statement ranges over
  arbitrarily large arguments: the column hash on `JsNum` (`getHashNum`).
* The program after startup is a state machine: `World` is the state, `handle`
  runs one event handler, `run` a sequence of them.
-/

namespace Slimecraft

/-! ## Data model -/

/-- The entries of `PLANET_TYPES` (index.js:28), spelled as in the source. -/
inductive Biome
  | tropical | volcanic | crystal | toxic | frozen | desert | nebular
  | fungal | aquatic | metallic | lush | artic | synthetic
  deriving DecidableEq

/-- The value of `biomeBlocks[biome]` for an active biome (index.js:40-51). -/
structure Blocks where
  ground : ℕ
  bark : ℕ
  leaves : ℕ
  deriving DecidableEq

/-- The module-level state that generation reads: `selectedBiomes`
(index.js:29), the biome-keyed entries of `biomeBlocks` (index.js:38-52),
`biomeBlocks['dirt'].id` (index.js:58) and `waterBlock` (index.js:64). -/
structure Session where
  selectedBiomes : List Biome
  biomeBlocks : Biome → Option Blocks
  dirtID : ℕ
  waterBlock : ℕ

/-- The functions of the JavaScript `Math` object that the generator calls. -/
structure JsMath (α : Type) where
  sin : α → α
  cos : α → α
  sqrt : α → α

/-- The ideal instance: real sine, cosine and square root. -/
noncomputable def realMath : JsMath ℝ where
  sin := Real.sin
  cos := Real.cos
  sqrt := Real.sqrt

/-- Crown shapes of the `config` table (index.js:92-95). -/
inductive Shape
  | cone | cube | sphere
  deriving DecidableEq

/-- One row of the `config` table (index.js:92-95). -/
structure TreeProfile (α : Type) where
  chance : α
  minH : ℤ
  maxH : ℤ
  shape : Shape

section Generic

variable {α : Type} [LinearOrderedField α] [FloorRing α]

/-! ## JavaScript primitives -/

/-- Reading `xs[i]` for an integer-valued number `i`: the element when
`0 ≤ i < xs.length`, `undefined` otherwise. -/
def jsIndex {β : Type} (xs : List β) (i : ℤ) : Option β :=
  if 0 ≤ i then xs[i.toNat]? else none

/-- The expression `a % 1` on numbers: `a` minus its truncation towards zero. -/
def jsMod1 (a : α) : α :=
  a - (if 0 ≤ a then (⌊a⌋ : ℤ) else (⌈a⌉ : ℤ))

/-! ## Startup: the palette (index.js:38-69) -/

/-- The block id returned by `noa.registry.registerBlock(id, opts)`: the
registry of noa-engine hands back the id it was given. -/
def registerBlock (id : ℕ) : ℕ := id

/-- The `selectedBiomes.forEach((biome, index) => ...)` loop of index.js:39-52,
started at position `index` with table `acc`. -/
def registerBiomes : List Biome → ℕ → (Biome → Option Blocks) → (Biome → Option Blocks)
  | [], _, acc => acc
  | biome :: rest, index, acc =>
    registerBiomes rest (index + 1) (fun b =>
      if b = biome then
        some { ground := registerBlock (index * 10 + 1)
               bark := registerBlock (index * 10 + 2)
               leaves := registerBlock (index * 10 + 3) }
      else acc b)

/-- The session that index.js:29-69 builds from a shuffled selection. -/
def startSession (selectedBiomes : List Biome) : Session where
  selectedBiomes := selectedBiomes
  biomeBlocks := registerBiomes selectedBiomes 0 (fun _ => none)
  dirtID := registerBlock 999
  waterBlock := registerBlock 1000

/-! ## Noise and biome choice (index.js:74-82) -/

/-- The function `smoothNoise` (index.js:74-76). -/
def smoothNoise (M : JsMath α) (x z : ℤ) : α :=
  (M.sin ((x : α) * 0.01) + M.cos ((z : α) * 0.01)) / 2 + 0.5

/-- The function `chooseBiome` (index.js:78-82); `%` is the truncated
remainder `Int.tmod`. -/
def chooseBiome (M : JsMath α) (selectedBiomes : List Biome) (x z : ℤ) : Option Biome :=
  let n := smoothNoise M x z
  let index : ℤ := ⌊n * (selectedBiomes.length : α)⌋
  jsIndex selectedBiomes (Int.tmod index (selectedBiomes.length : ℤ))

/-! ## Trees (index.js:87-135) -/

/-- The lookup `config[biome] || config.default` (index.js:91-97). -/
def config : Option Biome → TreeProfile α
  | some Biome.tropical => { chance := 0.980, minH := 6, maxH := 12, shape := Shape.cone }
  | some Biome.frozen => { chance := 0.994, minH := 3, maxH := 5, shape := Shape.cube }
  | some Biome.crystal => { chance := 0.988, minH := 5, maxH := 9, shape := Shape.sphere }
  | _ => { chance := 0.992, minH := 4, maxH := 7, shape := Shape.sphere }

/-- The closure `getHash` (index.js:99) on arguments for which no intermediate
result overflows; `getHashNum` is the closure with overflow. -/
def getHash (M : JsMath α) (nx nz : α) : α :=
  jsMod1 |M.sin (nx * 12.9898 + nz * 78.233) * 43758.5453|

/-! ## The column hash with overflow (index.js:99)

`getHash` above is the closure of index.js:99 on arguments for which no
intermediate result overflows.  `getHashNum` below is the same closure on
numbers that include `Infinity`, `-Infinity` and `NaN`, with the overflow of
`*` and `+`. -/

/-- A JavaScript number: a finite value, `Infinity`, `-Infinity` or `NaN`. -/
inductive JsNum (α : Type)
  | finite (a : α)
  | posInf
  | negInf
  | nan

/-- The least magnitude that the result of a double operation rounds to an
infinity: `2^1024 - 2^970`. -/
def overflowBound : α := 2 ^ 1024 - 2 ^ 970

/-- The number that an operation with exact result `a` returns: an infinity
when `a` reaches the overflow bound, `a` otherwise. -/
def JsNum.ofExact (a : α) : JsNum α :=
  if overflowBound ≤ a then JsNum.posInf
  else if a ≤ -overflowBound then JsNum.negInf
  else JsNum.finite a

/-- The operator `*` on numbers. -/
def JsNum.mul : JsNum α → JsNum α → JsNum α
  | JsNum.nan, _ => JsNum.nan
  | _, JsNum.nan => JsNum.nan
  | JsNum.finite a, JsNum.finite b => JsNum.ofExact (a * b)
  | JsNum.finite a, JsNum.posInf =>
    if 0 < a then JsNum.posInf else if a < 0 then JsNum.negInf else JsNum.nan
  | JsNum.finite a, JsNum.negInf =>
    if 0 < a then JsNum.negInf else if a < 0 then JsNum.posInf else JsNum.nan
  | JsNum.posInf, JsNum.finite b =>
    if 0 < b then JsNum.posInf else if b < 0 then JsNum.negInf else JsNum.nan
  | JsNum.negInf, JsNum.finite b =>
    if 0 < b then JsNum.negInf else if b < 0 then JsNum.posInf else JsNum.nan
  | JsNum.posInf, JsNum.posInf => JsNum.posInf
  | JsNum.posInf, JsNum.negInf => JsNum.negInf
  | JsNum.negInf, JsNum.posInf => JsNum.negInf
  | JsNum.negInf, JsNum.negInf => JsNum.posInf

/-- The operator `+` on numbers. -/
def JsNum.add : JsNum α → JsNum α → JsNum α
  | JsNum.nan, _ => JsNum.nan
  | _, JsNum.nan => JsNum.nan
  | JsNum.finite a, JsNum.finite b => JsNum.ofExact (a + b)
  | JsNum.finite _, JsNum.posInf => JsNum.posInf
  | JsNum.finite _, JsNum.negInf => JsNum.negInf
  | JsNum.posInf, JsNum.finite _ => JsNum.posInf
  | JsNum.negInf, JsNum.finite _ => JsNum.negInf
  | JsNum.posInf, JsNum.posInf => JsNum.posInf
  | JsNum.negInf, JsNum.negInf => JsNum.negInf
  | JsNum.posInf, JsNum.negInf => JsNum.nan
  | JsNum.negInf, JsNum.posInf => JsNum.nan

/-- The function `Math.sin` on numbers: `NaN` on the infinities and on `NaN`. -/
def JsNum.sin (M : JsMath α) : JsNum α → JsNum α
  | JsNum.finite a => JsNum.finite (M.sin a)
  | _ => JsNum.nan

/-- The function `Math.abs` on numbers. -/
def JsNum.abs : JsNum α → JsNum α
  | JsNum.finite a => JsNum.finite |a|
  | JsNum.posInf => JsNum.posInf
  | JsNum.negInf => JsNum.posInf
  | JsNum.nan => JsNum.nan

/-- The expression `a % 1` on numbers: `NaN` on the infinities and on `NaN`. -/
def JsNum.mod1 : JsNum α → JsNum α
  | JsNum.finite a => JsNum.finite (jsMod1 a)
  | _ => JsNum.nan

/-- The comparison `0 <= h && h < 1` on numbers; every comparison with `NaN`
is false. -/
def JsNum.InUnitInterval : JsNum α → Prop
  | JsNum.finite a => 0 ≤ a ∧ a < 1
  | _ => False

/-- The closure `getHash` (index.js:99) on numbers with overflow. -/
def getHashNum (M : JsMath α) (nx nz : JsNum α) : JsNum α :=
  JsNum.mod1 (JsNum.abs (JsNum.mul
    (JsNum.sin M (JsNum.add (JsNum.mul nx (JsNum.finite 12.9898))
      (JsNum.mul nz (JsNum.finite 78.233))))
    (JsNum.finite 43758.5453)))

/-- The scan order of the two nested loops of index.js:101-102: `dx` from
`-3` to `3` outside, `dz` from `-3` to `3` inside. -/
def scanOffsets : List (ℤ × ℤ) :=
  (List.range 7).flatMap fun (i : ℕ) =>
    (List.range 7).map fun (j : ℕ) => ((i : ℤ) - 3, (j : ℤ) - 3)

/-- The value of `treeSeed` (index.js:107) for a column hash `nHash`. -/
def treeSeed (nHash : α) : α := jsMod1 (nHash * 1000)

/-- The value of `currentTreeHeight` (index.js:108) for a column hash `nHash`. -/
def currentTreeHeight (p : TreeProfile α) (nHash : α) : ℤ :=
  ⌊(p.minH : α) + treeSeed nHash * ((p.maxH : α) - (p.minH : α))⌋

/-- The value of `currentCrownSize` (index.js:109) for a column hash `nHash`. -/
def currentCrownSize (nHash : α) : ℤ := ⌊2 + treeSeed nHash * 2⌋

/-- The body of the inner loop (index.js:103-131) at offset `(dx, dz)`:
`none` when the iteration falls through to the next offset, `some r` when it
executes `return`; `r = none` is the `TypeError` of reading `bark` or
`leaves` of an undefined `blocks`. -/
def treeStep (M : JsMath α) (hash : α → α → α) (p : TreeProfile α)
    (x y z baseHeight : ℤ) (blocks : Option Blocks) (dx dz : ℤ) : Option (Option ℕ) :=
  let nx := x + dx
  let nz := z + dz
  let nHash := hash (nx : α) (nz : α)
  if nHash > p.chance then
    let relY := y - baseHeight
    let distXZ := M.sqrt (((dx * dx + dz * dz : ℤ) : α))
    if dx = 0 ∧ dz = 0 ∧ relY ≥ 0 ∧ relY < currentTreeHeight p nHash then
      some (blocks.map Blocks.bark)
    else
      let crownStartY := currentTreeHeight p nHash - 1
      if relY ≥ crownStartY ∧ relY < currentTreeHeight p nHash + currentCrownSize nHash + 1 then
        let localY := relY - crownStartY
        match p.shape with
        | Shape.cube =>
          if |dx| ≤ 1 ∧ |dz| ≤ 1 then some (blocks.map Blocks.leaves) else none
        | Shape.sphere =>
          if distXZ + |(localY : α) - (currentCrownSize nHash : α) / 2|
              ≤ (currentCrownSize nHash : α) * 0.7
          then some (blocks.map Blocks.leaves) else none
        | Shape.cone =>
          let coneWidth := (currentCrownSize nHash : α)
            * (1 - (localY : α) / ((currentCrownSize nHash : α) + 2))
          if distXZ ≤ coneWidth then some (blocks.map Blocks.leaves) else none
      else none
  else none

/-- The function `getTreeVoxel` (index.js:87-135) with the column hash taken
as a parameter. -/
def getTreeVoxelWith (M : JsMath α) (hash : α → α → α) (x y z baseHeight : ℤ)
    (blocks : Option Blocks) (biome : Option Biome) : Option ℕ :=
  if y ≤ 3 then some 0
  else
    let p : TreeProfile α := config biome
    (scanOffsets.findSome? fun d => treeStep M hash p x y z baseHeight blocks d.1 d.2).getD (some 0)

/-- The function `getTreeVoxel` (index.js:87-135). -/
def getTreeVoxel (M : JsMath α) (x y z baseHeight : ℤ)
    (blocks : Option Blocks) (biome : Option Biome) : Option ℕ :=
  getTreeVoxelWith M (getHash M) x y z baseHeight blocks biome

/-! ## Terrain layers (index.js:140-172) -/

/-- The value of the local `baseHeight` after the `switch` of index.js:145-152. -/
def baseHeight (M : JsMath α) (biome : Option Biome) (x z : ℤ) : ℤ :=
  5 + match biome with
    | some Biome.tropical => ⌊M.sin ((x : α) * 0.05) * 4 + M.cos ((z : α) * 0.05) * 4⌋
    | some Biome.volcanic => ⌊M.sin ((x : α) * 0.1) * 5⌋
    | some Biome.crystal => ⌊M.sin ((x : α) * 0.06) * 8⌋
    | some Biome.frozen => 2
    | _ => ⌊M.sin ((x : α) * 0.05) * 2 + M.cos ((z : α) * 0.05) * 2⌋

/-- The function `getVoxelID` (index.js:140-172) with the column hash that
its call of `getTreeVoxel` uses taken as a parameter. -/
def getVoxelIDWith (M : JsMath α) (hash : α → α → α) (s : Session) (x y z : ℤ) : Option ℕ :=
  let biome := chooseBiome M s.selectedBiomes x z
  let blocks := biome.bind s.biomeBlocks
  let dirtID := s.dirtID
  let baseHeight := baseHeight M biome x z
  let waterLevel : ℤ := 3
  if y < -15 then some dirtID
  else if y < baseHeight then
    if y ≥ baseHeight - 1 then blocks.map Blocks.ground
    else some dirtID
  else if y ≤ waterLevel then some s.waterBlock
  else if baseHeight > waterLevel then getTreeVoxelWith M hash x y z baseHeight blocks biome
  else some 0

/-- The function `getVoxelID` (index.js:140-172). -/
def getVoxelID (M : JsMath α) (s : Session) (x y z : ℤ) : Option ℕ :=
  getVoxelIDWith M (getHash M) s x y z

/-! ## Chunk generation (index.js:177-184) -/

/-- The `data` argument of the `worldDataNeeded` handler: an array with a
`shape` and one voxel id per cell. -/
structure ChunkData where
  shape : ℤ × ℤ × ℤ
  cells : ℤ → ℤ → ℤ → ℕ

/-- The call `data.set(i, j, k, v)`: cell `(i, j, k)` becomes `v`, every other
cell and the shape stay as they are. -/
def ChunkData.set (data : ChunkData) (i j k : ℤ) (v : ℕ) : ChunkData :=
  { data with cells := fun a b c => if a = i ∧ b = j ∧ c = k then v else data.cells a b c }

/-- The values that the counter of `for (let i = 0; i < n; i++)` takes, in
order; none when `n ≤ 0`. -/
def loopIndices (n : ℤ) : List ℤ :=
  (List.range n.toNat).map fun (i : ℕ) => (i : ℤ)

/-- The `worldDataNeeded` handler (index.js:177-184): the buffer handed to
`noa.world.setChunkData`, or `none` when a call of `getVoxelID` throws and
the handler is left before `setChunkData` is reached. -/
def worldDataNeeded (M : JsMath α) (s : Session) (data : ChunkData) (x y z : ℤ) :
    Option ChunkData :=
  (loopIndices data.shape.1).foldlM (fun d i =>
    (loopIndices data.shape.2.1).foldlM (fun d j =>
      (loopIndices data.shape.2.2).foldlM (fun d k =>
        (getVoxelID M s (x + i) (y + j) (z + k)).map fun v => d.set i j k v) d) d) data

/-! ## Event handlers (index.js:177-209)

After startup the program runs only its three event handlers.  `World` is the
state they can reach: the module-level bindings that generation reads and the
two stores of the engine that the handlers write to. -/

/-- The state of the running program: the bindings `selectedBiomes`,
`biomeBlocks` and `waterBlock` (`session`), the chunk buffers handed to
`noa.world.setChunkData` (`chunks`, by chunk id) and the voxels written by
`noa.setBlock` (`edits`). -/
structure World where
  session : Session
  chunks : String → Option ChunkData
  edits : ℤ → ℤ → ℤ → Option ℕ

/-- The events that the program subscribes to: `worldDataNeeded` with the
arguments of the handler (index.js:177), `fire` (index.js:199) and `alt-fire`
(index.js:203) with the position read from `noa.targetedBlock` (`position`
and `adjacent`), `none` when no block is targeted. -/
inductive Event
  | worldDataNeeded (id : String) (data : ChunkData) (x y z : ℤ)
  | fire (position : Option (ℤ × ℤ × ℤ))
  | altFire (adjacent : Option (ℤ × ℤ × ℤ))

/-- The call `noa.world.setChunkData(id, data)`. -/
def World.setChunkData (w : World) (id : String) (data : ChunkData) : World :=
  { w with chunks := fun i => if i = id then some data else w.chunks i }

/-- The call `noa.setBlock(id, x, y, z)`. -/
def World.setBlock (w : World) (id : ℕ) (pos : ℤ × ℤ × ℤ) : World :=
  { w with edits := fun a b c => if (a, b, c) = pos then some id else w.edits a b c }

/-- One run of an event handler (index.js:177-184, 199-201, 203-209).  A
handler that throws leaves the state as it was: the `worldDataNeeded` handler
throws before `setChunkData`, the `alt-fire` handler throws at
`biomeBlocks[biome].ground` before `setBlock`. -/
def handle (M : JsMath α) (w : World) : Event → World
  | Event.worldDataNeeded id data x y z =>
    match worldDataNeeded M w.session data x y z with
    | some filled => w.setChunkData id filled
    | none => w
  | Event.fire none => w
  | Event.fire (some position) => w.setBlock 0 position
  | Event.altFire none => w
  | Event.altFire (some pos) =>
    let biome := chooseBiome M w.session.selectedBiomes pos.1 pos.2.2
    match biome.bind w.session.biomeBlocks with
    | some blocks => w.setBlock blocks.ground pos
    | none => w

/-- The state after a sequence of events. -/
def run (M : JsMath α) (w : World) (events : List Event) : World :=
  events.foldl (handle M) w

/-- A call of `getVoxelID(x, y, z)` in state `w`: it reads the bindings of
`w.session` and writes nothing. -/
def World.getVoxelID (M : JsMath α) (w : World) (x y z : ℤ) : Option ℕ :=
  Slimecraft.getVoxelID M w.session x y z

/-- A call of `chooseBiome(x, z)` in state `w`. -/
def World.chooseBiome (M : JsMath α) (w : World) (x z : ℤ) : Option Biome :=
  Slimecraft.chooseBiome M w.session.selectedBiomes x z

/-! ## Comparison definitions

The definitions below are not translations of source functions: they state
the rules of the tree description in the words of the specification, or vary
one line of a source function, to be compared with the embedding above. -/

/-- The column at offset `(dx, dz)` of `(x, z)` hosts a tree: its hash exceeds
the `chance` of the profile. -/
def hostsTree (hash : α → α → α) (p : TreeProfile α) (x z dx dz : ℤ) : Prop :=
  hash ((x + dx : ℤ) : α) ((z + dz : ℤ) : α) > p.chance

/-- The trunk rule: the column is the voxel's own column and the height of
the voxel above `baseHeight` lies in `[0, treeHeight)`. -/
def trunkRule (hash : α → α → α) (p : TreeProfile α) (x y z baseHeight dx dz : ℤ) : Prop :=
  dx = 0 ∧ dz = 0 ∧ 0 ≤ y - baseHeight ∧
    y - baseHeight < currentTreeHeight p (hash ((x + dx : ℤ) : α) ((z + dz : ℤ) : α))

/-- The crown shape test at horizontal offset `(dx, dz)` and height `localY`
inside a crown of size `crownSize`. -/
def crownTest (M : JsMath α) (shape : Shape) (crownSize dx dz localY : ℤ) : Prop :=
  match shape with
  | Shape.cube => |dx| ≤ 1 ∧ |dz| ≤ 1
  | Shape.sphere =>
    M.sqrt ((dx ^ 2 + dz ^ 2 : ℤ) : α) + |(localY : α) - (crownSize : α) / 2|
      ≤ 0.7 * (crownSize : α)
  | Shape.cone =>
    M.sqrt ((dx ^ 2 + dz ^ 2 : ℤ) : α)
      ≤ (crownSize : α) * (1 - (localY : α) / ((crownSize : α) + 2))

/-- The canopy rule: `relY = y - baseHeight` lies in
`[treeHeight - 1, treeHeight + crownSize]` and the crown shape test holds at
`localY = relY - (treeHeight - 1)`. -/
def canopyRule (M : JsMath α) (hash : α → α → α) (p : TreeProfile α)
    (x y z baseHeight dx dz : ℤ) : Prop :=
  let nHash := hash ((x + dx : ℤ) : α) ((z + dz : ℤ) : α)
  currentTreeHeight p nHash - 1 ≤ y - baseHeight ∧
    y - baseHeight ≤ currentTreeHeight p nHash + currentCrownSize nHash ∧
    crownTest M p.shape (currentCrownSize nHash) dx dz
      (y - baseHeight - (currentTreeHeight p nHash - 1))

/-- The offsets of a scan of radius `radius`, in the order of the nested
loops of index.js:101-102 with `radius` in place of 3. -/
def scanOffsetsR (radius : ℕ) : List (ℤ × ℤ) :=
  (List.range (2 * radius + 1)).flatMap fun (i : ℕ) =>
    (List.range (2 * radius + 1)).map fun (j : ℕ) => ((i : ℤ) - radius, (j : ℤ) - radius)

/-- The function `getTreeVoxel` with the constant `radius` of index.js:100
replaced by a parameter. -/
def getTreeVoxelRadius (radius : ℕ) (M : JsMath α) (hash : α → α → α)
    (x y z baseHeight : ℤ) (blocks : Option Blocks) (biome : Option Biome) : Option ℕ :=
  if y ≤ 3 then some 0
  else
    let p : TreeProfile α := config biome
    ((scanOffsetsR radius).findSome? fun d =>
      treeStep M hash p x y z baseHeight blocks d.1 d.2).getD (some 0)

/-- The function `getVoxelID` with the test `if (y < -15) return dirtID` of
index.js:156 removed. -/
def getVoxelIDNoFloor (M : JsMath α) (hash : α → α → α) (s : Session) (x y z : ℤ) :
    Option ℕ :=
  let biome := chooseBiome M s.selectedBiomes x z
  let blocks := biome.bind s.biomeBlocks
  let dirtID := s.dirtID
  let baseHeight := baseHeight M biome x z
  let waterLevel : ℤ := 3
  if y < baseHeight then
    if y ≥ baseHeight - 1 then blocks.map Blocks.ground
    else some dirtID
  else if y ≤ waterLevel then some s.waterBlock
  else if baseHeight > waterLevel then getTreeVoxelWith M hash x y z baseHeight blocks biome
  else some 0

/-! ## Assumptions on the `Math` functions and test data -/

/-- Sine and cosine take their values in `[-1, 1]`. -/
def JsMath.Bounded (M : JsMath α) : Prop :=
  ∀ t : α, (-1 ≤ M.sin t ∧ M.sin t ≤ 1) ∧ (-1 ≤ M.cos t ∧ M.cos t ≤ 1)

/-- The square root is at least `k` on every integer `n ≥ k * k`, for
integers `k ≥ 0`. -/
def JsMath.SqrtLower (M : JsMath α) : Prop :=
  ∀ k n : ℤ, 0 ≤ k → k * k ≤ n → (k : α) ≤ M.sqrt (n : α)

/-- The active set `[tropical, frozen, crystal]` used in the examples. -/
def exampleBiomes : List Biome := [Biome.tropical, Biome.frozen, Biome.crystal]

/-- A column hash for which the tree at offset `(-1, -1)` of column `(0, 0)`
overhangs the trunk of the tree at `(0, 0)`: hash `0.995` at `(-1, -1)`,
hash `0.9955` at `(0, 0)`, hash `0` everywhere else. -/
def overhangHash (nx nz : α) : α :=
  if nx = -1 ∧ nz = -1 then 0.995
  else if nx = 0 ∧ nz = 0 then 0.9955
  else 0

/-- A column hash for which only column `(0, 0)` hosts a tree: hash `0.9955`
at `(0, 0)`, hash `0` everywhere else. -/
def loneHash (nx nz : α) : α :=
  if nx = 0 ∧ nz = 0 then 0.9955 else 0

end Generic

/-! ## Auxiliary facts -/

section Lemmas

variable {α : Type} [LinearOrderedField α] [FloorRing α]

theorem realMath_bounded : realMath.Bounded := fun t =>
  ⟨⟨Real.neg_one_le_sin t, Real.sin_le_one t⟩, ⟨Real.neg_one_le_cos t, Real.cos_le_one t⟩⟩

theorem baseHeight_ge (M : JsMath α) (hM : M.Bounded) (biome : Option Biome) (x z : ℤ) :
    -3 ≤ baseHeight M biome x z := by
  have hs := fun t => (hM t).1
  have hc := fun t => (hM t).2
  unfold baseHeight
  split
  · have : (-8 : ℤ) ≤ ⌊M.sin ((x : α) * 0.05) * 4 + M.cos ((z : α) * 0.05) * 4⌋ := by
      rw [Int.le_floor]; push_cast
      linarith [(hs ((x : α) * 0.05)).1, (hc ((z : α) * 0.05)).1]
    omega
  · have : (-5 : ℤ) ≤ ⌊M.sin ((x : α) * 0.1) * 5⌋ := by
      rw [Int.le_floor]; push_cast
      linarith [(hs ((x : α) * 0.1)).1]
    omega
  · have : (-8 : ℤ) ≤ ⌊M.sin ((x : α) * 0.06) * 8⌋ := by
      rw [Int.le_floor]; push_cast
      linarith [(hs ((x : α) * 0.06)).1]
    omega
  · omega
  · have : (-4 : ℤ) ≤ ⌊M.sin ((x : α) * 0.05) * 2 + M.cos ((z : α) * 0.05) * 2⌋ := by
      rw [Int.le_floor]; push_cast
      linarith [(hs ((x : α) * 0.05)).1, (hc ((z : α) * 0.05)).1]
    omega

end Lemmas

/-! ## Facts about the real sine and cosine at the sample columns -/

section RealFacts

theorem sin_tenth_bounds : 0 < Real.sin (1 / 10) ∧ Real.sin (1 / 10) ≤ 1 / 10 := by
  refine ⟨Real.sin_pos_of_pos_of_lt_pi (by norm_num) ?_, Real.sin_le (by norm_num)⟩
  linarith [Real.pi_gt_three]

theorem sin_six_tenths_lower : (1 / 2 : ℝ) < Real.sin (6 / 10) := by
  have h := Real.sin_gt_sub_cube (x := 6 / 10) (by norm_num) (by norm_num)
  norm_num at h
  linarith

theorem chooseBiome_example_healthy :
    chooseBiome realMath exampleBiomes (-10) 0 = some Biome.crystal := by
  have hfl : ⌊smoothNoise realMath (-10) 0 * 3⌋ = 2 := by
    rw [Int.floor_eq_iff]
    have h := sin_tenth_bounds
    have e : Real.sin (((-10 : ℤ) : ℝ) * 0.01) = - Real.sin (1 / 10) := by
      rw [← Real.sin_neg]; congr 1; norm_num
    simp only [smoothNoise, realMath, e]
    norm_num
    constructor <;> linarith [h.1, h.2]
  simp only [chooseBiome, exampleBiomes, List.length_cons, List.length_nil]
  norm_num
  rw [hfl]
  rfl

theorem baseHeight_example_healthy :
    baseHeight realMath (some Biome.crystal) (-10) 0 ≤ 3 := by
  have e : Real.sin (((-10 : ℤ) : ℝ) * 0.06) = - Real.sin (6 / 10) := by
    rw [← Real.sin_neg]; congr 1; norm_num
  have : ⌊realMath.sin (((-10 : ℤ) : ℝ) * 0.06) * 8⌋ < -1 := by
    rw [Int.floor_lt]
    simp only [realMath, e]
    push_cast
    linarith [sin_six_tenths_lower]
  simp only [baseHeight]
  omega

end RealFacts

/-! ## Facts about the real sine and cosine at column (-157, 314) -/

section RealFactsNegative

theorem cos_near_zero (t : ℝ) (h : |t| ≤ 1 / 10) : (99 / 100 : ℝ) ≤ Real.cos t := by
  have h1 := Real.one_sub_sq_div_two_le_cos (x := t)
  have h2 : t ^ 2 ≤ (1 / 10) ^ 2 := by
    rw [← sq_abs t]
    exact pow_le_pow_left₀ (abs_nonneg t) h 2
  norm_num at h2
  linarith

theorem sin_157 : (99 / 100 : ℝ) ≤ Real.sin (157 / 100) := by
  rw [← Real.cos_pi_div_two_sub]
  apply cos_near_zero
  rw [abs_le]
  constructor <;> linarith [Real.pi_gt_d2, Real.pi_lt_d2]

theorem cos_314 : Real.cos (314 / 100) ≤ -(99 / 100 : ℝ) := by
  have e : Real.cos (314 / 100) = -Real.cos (Real.pi - 314 / 100) := by
    rw [Real.cos_pi_sub, neg_neg]
  rw [e]
  have : (99 / 100 : ℝ) ≤ Real.cos (Real.pi - 314 / 100) := by
    apply cos_near_zero
    rw [abs_le]
    constructor <;> linarith [Real.pi_gt_d2, Real.pi_lt_d2]
  linarith

theorem sin_785 : (99 / 100 : ℝ) ≤ Real.sin (785 / 100) := by
  have e : Real.sin (785 / 100) = Real.cos (Real.pi / 2 - (785 / 100 - 2 * Real.pi)) := by
    rw [Real.cos_pi_div_two_sub, Real.sin_sub_two_pi]
  rw [e]
  apply cos_near_zero
  rw [abs_le]
  constructor <;> linarith [Real.pi_gt_d2, Real.pi_lt_d2]

theorem cos_1570 : Real.cos (1570 / 100) ≤ -(99 / 100 : ℝ) := by
  have e : Real.cos (1570 / 100)
      = -Real.cos (Real.pi - (1570 / 100 - 2 * Real.pi - 2 * Real.pi)) := by
    rw [Real.cos_pi_sub, neg_neg, Real.cos_sub_two_pi, Real.cos_sub_two_pi]
  rw [e]
  have : (99 / 100 : ℝ) ≤
      Real.cos (Real.pi - (1570 / 100 - 2 * Real.pi - 2 * Real.pi)) := by
    apply cos_near_zero
    rw [abs_le]
    constructor <;> linarith [Real.pi_gt_d2, Real.pi_lt_d2]
  linarith

theorem smoothNoise_negative_column :
    -(1 / 2 : ℝ) ≤ smoothNoise realMath (-157) 314 ∧
      smoothNoise realMath (-157) 314 ≤ -(49 / 100 : ℝ) := by
  have e1 : Real.sin (((-157 : ℤ) : ℝ) * 0.01) = -Real.sin (157 / 100) := by
    rw [← Real.sin_neg]; congr 1; norm_num
  have e2 : Real.cos (((314 : ℤ) : ℝ) * 0.01) = Real.cos (314 / 100) := by
    congr 1; norm_num
  simp only [smoothNoise, realMath, e1, e2]
  have h1 := sin_157
  have h2 := cos_314
  have h3 := Real.sin_le_one (157 / 100)
  have h4 := Real.neg_one_le_cos (314 / 100)
  constructor <;> norm_num <;> linarith

theorem floor_noise_negative_column : ⌊smoothNoise realMath (-157) 314 * 3⌋ = -2 := by
  rw [Int.floor_eq_iff]
  have h := smoothNoise_negative_column
  constructor <;> push_cast <;> linarith [h.1, h.2]

theorem chooseBiome_negative_column :
    chooseBiome realMath exampleBiomes (-157) 314 = none := by
  simp only [chooseBiome, exampleBiomes, List.length_cons, List.length_nil]
  norm_num
  rw [floor_noise_negative_column]
  rfl

theorem baseHeight_negative_column : baseHeight realMath none (-157) 314 = 1 := by
  have e1 : Real.sin (((-157 : ℤ) : ℝ) * 0.05) = -Real.sin (785 / 100) := by
    rw [← Real.sin_neg]; congr 1; norm_num
  have e2 : Real.cos (((314 : ℤ) : ℝ) * 0.05) = Real.cos (1570 / 100) := by
    congr 1; norm_num
  have hfl : ⌊realMath.sin (((-157 : ℤ) : ℝ) * 0.05) * 2
      + realMath.cos (((314 : ℤ) : ℝ) * 0.05) * 2⌋ = -4 := by
    rw [Int.floor_eq_iff]
    simp only [realMath, e1, e2]
    have h1 := sin_785
    have h2 := cos_1570
    have h3 := Real.sin_le_one (785 / 100)
    have h4 := Real.neg_one_le_cos (1570 / 100)
    constructor <;> push_cast <;> linarith
  simp only [baseHeight, hfl]
  rfl

end RealFactsNegative

/-! ## The palette built at startup -/

section Palette

theorem registerBiomes_ids (sel : List Biome) (index : ℕ) (acc : Biome → Option Blocks)
    (b : Biome) (blocks : Blocks) (h : registerBiomes sel index acc b = some blocks) :
    acc b = some blocks ∨
      (blocks.ground % 10 = 1 ∧ blocks.bark % 10 = 2 ∧ blocks.leaves % 10 = 3) := by
  induction sel generalizing index acc with
  | nil => exact Or.inl h
  | cons biome rest ih =>
    rcases ih (index + 1) _ h with h1 | h1
    · by_cases hb : b = biome
      · simp only [hb, if_true, Option.some.injEq] at h1
        subst h1
        right
        simp only [registerBlock]
        omega
      · simp only [hb, if_false] at h1
        exact Or.inl h1
    · exact Or.inr h1

theorem startSession_ids (sel : List Biome) (b : Biome) (blocks : Blocks)
    (h : (startSession sel).biomeBlocks b = some blocks) :
    blocks.ground % 10 = 1 ∧ blocks.bark % 10 = 2 ∧ blocks.leaves % 10 = 3 := by
  rcases registerBiomes_ids sel 0 (fun _ => none) b blocks h with h1 | h1
  · cases h1
  · exact h1

end Palette

/-! ## Biome choice -/

section BiomeChoice

variable {α : Type} [LinearOrderedField α] [FloorRing α]

/-- C3: `smoothNoise` leaves `[0, 1]` on both sides: it is below `-0.49` at
column (-157, 314) and above `1.49` at column (157, 0). -/
theorem smoothNoise_out_of_range :
    smoothNoise realMath (-157) 314 ≤ -(49 / 100 : ℝ) ∧
      (149 / 100 : ℝ) ≤ smoothNoise realMath 157 0 := by
  refine ⟨smoothNoise_negative_column.2, ?_⟩
  have e1 : Real.sin (((157 : ℤ) : ℝ) * 0.01) = Real.sin (157 / 100) := by
    congr 1; norm_num
  have e2 : Real.cos (((0 : ℤ) : ℝ) * 0.01) = 1 := by
    rw [Int.cast_zero, zero_mul, Real.cos_zero]
  simp only [smoothNoise, realMath, e1, e2]
  have h1 := sin_157
  norm_num
  linarith

/-- C1: at column (-157, 314) the index `floor(smoothNoise * 3)` is `-2`, the
JavaScript remainder `-2 % 3` is `-2`, and `chooseBiome` returns `undefined`
instead of an entry of `selectedBiomes`. -/
theorem chooseBiome_undefined :
    ⌊smoothNoise realMath (-157) 314 * 3⌋ = -2 ∧ Int.tmod (-2) 3 = -2 ∧
      chooseBiome realMath exampleBiomes (-157) 314 = none :=
  ⟨floor_noise_negative_column, by decide, chooseBiome_negative_column⟩

/-- C2: at voxel (-157, 0, 314) the palette lookup `biomeBlocks[chooseBiome(x, z)]`
is `undefined` and `getVoxelID` throws when it reads its `ground` field. -/
theorem getVoxelID_throws :
    (chooseBiome realMath exampleBiomes (-157) 314).bind
        (startSession exampleBiomes).biomeBlocks = none ∧
      getVoxelID realMath (startSession exampleBiomes) (-157) 0 314 = none := by
  have hc : chooseBiome realMath (startSession exampleBiomes).selectedBiomes (-157) 314
      = none := chooseBiome_negative_column
  constructor
  · rw [chooseBiome_negative_column]; rfl
  · simp only [getVoxelID, getVoxelIDWith, hc, baseHeight_negative_column]
    rfl

/-- C4: at column (-157, 314) the base height is `b = 1`; the voxel at `b - 1`
is not the ground id, `getVoxelID` throws there, while the voxel at `b - 2`
is the dirt id 999. -/
theorem surface_voxel_throws :
    baseHeight realMath (chooseBiome realMath exampleBiomes (-157) 314) (-157) 314 = 1 ∧
      getVoxelID realMath (startSession exampleBiomes) (-157) (1 - 1) 314 = none ∧
      getVoxelID realMath (startSession exampleBiomes) (-157) (1 - 2) 314 = some 999 := by
  have hc : chooseBiome realMath (startSession exampleBiomes).selectedBiomes (-157) 314
      = none := chooseBiome_negative_column
  refine ⟨by rw [chooseBiome_negative_column]; exact baseHeight_negative_column, ?_, ?_⟩
  · simp only [getVoxelID, getVoxelIDWith, hc, baseHeight_negative_column]
    rfl
  · simp only [getVoxelID, getVoxelIDWith, hc, baseHeight_negative_column]
    rfl

/-- The surface layering on a column whose biome is defined and has a palette
entry: ground at `b - 1` and, when `b - 2 ≥ -15`, dirt at `b - 2`. -/
theorem surface_of_defined (M : JsMath α) (hM : M.Bounded) (s : Session) (x z : ℤ)
    (biome : Biome) (blocks : Blocks)
    (hbiome : chooseBiome M s.selectedBiomes x z = some biome)
    (hblocks : s.biomeBlocks biome = some blocks) :
    getVoxelID M s x (baseHeight M (some biome) x z - 1) z = some blocks.ground ∧
      (-15 ≤ baseHeight M (some biome) x z - 2 →
        getVoxelID M s x (baseHeight M (some biome) x z - 2) z = some s.dirtID) := by
  have hge := baseHeight_ge M hM (some biome) x z
  constructor
  · have h1 : ¬ baseHeight M (some biome) x z - 1 < -15 := by omega
    simp [getVoxelID, getVoxelIDWith, hbiome, hblocks, h1]
  · intro h
    have h1 : ¬ baseHeight M (some biome) x z - 2 < -15 := by omega
    have h2 : baseHeight M (some biome) x z - 2 < baseHeight M (some biome) x z := by omega
    have h3 : ¬ baseHeight M (some biome) x z - 2 ≥ baseHeight M (some biome) x z - 1 := by
      omega
    simp only [getVoxelID, getVoxelIDWith, hbiome, h1, h2, h3, if_true, if_false]

/-- C9, boundary reduction: `smoothNoise(0, 0)` is exactly 1, `chooseBiome(0, 0)`
is the first entry of `[tropical, frozen, crystal]`, and for every session of
3 active biomes, whenever `floor(smoothNoise(x, z) * 3)` is 3 `chooseBiome`
returns `selectedBiomes[0]`. -/
theorem chooseBiome_boundary :
    smoothNoise realMath 0 0 = 1 ∧
      chooseBiome realMath exampleBiomes 0 0 = some Biome.tropical ∧
      ∀ (β : Type) [LinearOrderedField β] [FloorRing β] (M : JsMath β)
        (selectedBiomes : List Biome) (x z : ℤ), selectedBiomes.length = 3 →
        ⌊smoothNoise M x z * 3⌋ = 3 →
        chooseBiome M selectedBiomes x z = selectedBiomes[0]? := by
  have h0 : smoothNoise realMath 0 0 = 1 := by
    simp only [smoothNoise, realMath, Int.cast_zero, zero_mul, Real.sin_zero, Real.cos_zero]
    norm_num
  have hgen : ∀ (β : Type) [LinearOrderedField β] [FloorRing β] (M : JsMath β)
      (selectedBiomes : List Biome) (x z : ℤ), selectedBiomes.length = 3 →
      ⌊smoothNoise M x z * 3⌋ = 3 →
      chooseBiome M selectedBiomes x z = selectedBiomes[0]? := by
    intro β _ _ M sel x z hlen hfl
    simp only [chooseBiome, hlen]
    norm_num
    rw [hfl]
    rfl
  refine ⟨h0, ?_, hgen⟩
  have := hgen ℝ realMath exampleBiomes 0 0 rfl (by rw [h0]; norm_num)
  rw [this]; rfl

theorem chooseBiome_boundary_witness :
    ⌊smoothNoise realMath 0 0 * 3⌋ = 3 ∧
      chooseBiome realMath exampleBiomes 0 0 = exampleBiomes[0]? :=
  ⟨by rw [chooseBiome_boundary.1]; norm_num,
    chooseBiome_boundary.2.2 ℝ realMath exampleBiomes 0 0 rfl
      (by rw [chooseBiome_boundary.1]; norm_num)⟩

end BiomeChoice

/-! ## Terrain layers -/

section Layers

variable {α : Type} [LinearOrderedField α] [FloorRing α]

/-- C6, floor invariant: every voxel with `y < -15` is the dirt id, whatever
the column's biome is (also when `chooseBiome` yields `undefined`). -/
theorem floor_invariant (M : JsMath α) (s : Session) (x y z : ℤ) (hy : y < -15) :
    getVoxelID M s x y z = some s.dirtID := by
  simp [getVoxelID, getVoxelIDWith, hy]

theorem floor_invariant_witness :
    (-16 : ℤ) < -15 ∧ getVoxelID realMath (startSession exampleBiomes) 0 (-16) 0 = some 999 :=
  ⟨by decide, floor_invariant realMath (startSession exampleBiomes) 0 (-16) 0 (by decide)⟩

/-- C7, no underwater trees: `getTreeVoxel` returns 0 whenever `y ≤ 3`, for
every base height, every `blocks` argument (also `undefined`) and every biome
argument. -/
theorem no_underwater_trees (M : JsMath α) (x y z baseHeight : ℤ)
    (blocks : Option Blocks) (biome : Option Biome) (hy : y ≤ 3) :
    getTreeVoxel M x y z baseHeight blocks biome = some 0 := by
  simp [getTreeVoxel, getTreeVoxelWith, hy]

theorem no_underwater_trees_witness :
    (3 : ℤ) ≤ 3 ∧
      getTreeVoxel realMath 0 3 0 2 (some ⟨11, 12, 13⟩) (some Biome.frozen) = some 0 :=
  ⟨le_refl 3, no_underwater_trees realMath 0 3 0 2 (some ⟨11, 12, 13⟩) (some Biome.frozen)
    (le_refl 3)⟩

/-- C8, flooded columns get no trees: a voxel with `y > 3` in a column whose
base height is at most 3 is air, for every column hash `hash` that
`getTreeVoxel` could use. -/
theorem flooded_no_trees (M : JsMath α) (hash : α → α → α) (s : Session) (x y z : ℤ)
    (hy : 3 < y) (hb : baseHeight M (chooseBiome M s.selectedBiomes x z) x z ≤ 3) :
    getVoxelIDWith M hash s x y z = some 0 := by
  have h1 : ¬ y < -15 := by omega
  have h2 : ¬ y < baseHeight M (chooseBiome M s.selectedBiomes x z) x z := by omega
  have h3 : ¬ y ≤ 3 := by omega
  have h4 : ¬ baseHeight M (chooseBiome M s.selectedBiomes x z) x z > 3 := by omega
  simp only [getVoxelIDWith, h1, h2, h3, h4, if_false]

theorem flooded_no_trees_witness :
    (3 : ℤ) < 4 ∧
      baseHeight realMath (chooseBiome realMath exampleBiomes (-10) 0) (-10) 0 ≤ 3 ∧
      getVoxelID realMath (startSession exampleBiomes) (-10) 4 0 = some 0 :=
  ⟨by decide, by rw [chooseBiome_example_healthy]; exact baseHeight_example_healthy,
    flooded_no_trees realMath (getHash realMath) (startSession exampleBiomes) (-10) 4 0
      (by decide) (by
        show baseHeight realMath (chooseBiome realMath exampleBiomes (-10) 0) (-10) 0 ≤ 3
        rw [chooseBiome_example_healthy]; exact baseHeight_example_healthy)⟩

/-- C5, water invariant: with sine and cosine in `[-1, 1]`, a voxel with
`y ≤ 3` that is not below the base height of its column is the water id; in
the palette built at startup the water id is 1000, which is not 0, not the dirt
id and not the ground, bark or leaves id of any biome. -/
theorem water_invariant (M : JsMath α) (hM : M.Bounded) (s : Session) (x y z : ℤ)
    (hy : y ≤ 3) (hb : baseHeight M (chooseBiome M s.selectedBiomes x z) x z ≤ y) :
    getVoxelID M s x y z = some s.waterBlock ∧
      (s = startSession s.selectedBiomes →
        s.waterBlock = 1000 ∧ s.waterBlock ≠ 0 ∧ s.waterBlock ≠ s.dirtID ∧
        ∀ b blocks, s.biomeBlocks b = some blocks →
          s.waterBlock ≠ blocks.ground ∧ s.waterBlock ≠ blocks.bark ∧
          s.waterBlock ≠ blocks.leaves) := by
  constructor
  · have hge := baseHeight_ge M hM (chooseBiome M s.selectedBiomes x z) x z
    have h1 : ¬ y < -15 := by omega
    have h2 : ¬ y < baseHeight M (chooseBiome M s.selectedBiomes x z) x z := by omega
    simp only [getVoxelID, getVoxelIDWith, h1, h2, hy, if_false, if_true]
  · intro hs
    have hw : s.waterBlock = 1000 := by rw [hs]; rfl
    have hd : s.dirtID = 999 := by rw [hs]; rfl
    refine ⟨hw, by omega, by omega, ?_⟩
    intro b blocks hbl
    rw [hs] at hbl
    have := startSession_ids s.selectedBiomes b blocks hbl
    omega

theorem water_invariant_witness :
    (3 : ℤ) ≤ 3 ∧
      baseHeight realMath (chooseBiome realMath exampleBiomes (-10) 0) (-10) 0 ≤ 3 ∧
      getVoxelID realMath (startSession exampleBiomes) (-10) 3 0 = some 1000 :=
  ⟨le_refl 3, by rw [chooseBiome_example_healthy]; exact baseHeight_example_healthy,
    (water_invariant realMath realMath_bounded (startSession exampleBiomes) (-10) 3 0
      (le_refl 3) (by
        show baseHeight realMath (chooseBiome realMath exampleBiomes (-10) 0) (-10) 0 ≤ 3
        rw [chooseBiome_example_healthy]; exact baseHeight_example_healthy)).1⟩

end Layers

/-! ## Trees -/

section Trees

variable {α : Type} [LinearOrderedField α] [FloorRing α]

theorem findSome_first {β γ : Type} (f : β → Option γ) (l₁ l₂ : List β) (d : β) (r : γ)
    (h₁ : ∀ e ∈ l₁, f e = none) (h : f d = some r) :
    (l₁ ++ d :: l₂).findSome? f = some r := by
  rw [List.findSome?_append, List.findSome?_eq_none_iff.mpr h₁]
  simp [List.findSome?_cons, h]

theorem scanOffsets_split_own :
    scanOffsets = scanOffsets.take 24 ++ (0, 0) :: scanOffsets.drop 25 := by decide

theorem scanOffsets_before_own :
    ∀ d ∈ scanOffsets.take 24, d ∈ scanOffsets ∧ (d.1 < 0 ∨ (d.1 = 0 ∧ d.2 < 0)) := by
  decide

theorem treeStep_own (M : JsMath α) (hash : α → α → α) (p : TreeProfile α)
    (x y z baseHeight : ℤ) (blocks : Option Blocks)
    (hhost : hash (x : α) (z : α) > p.chance)
    (hrel : 0 ≤ y - baseHeight ∧ y - baseHeight < currentTreeHeight p (hash (x : α) (z : α))) :
    treeStep M hash p x y z baseHeight blocks 0 0 = some (blocks.map Blocks.bark) := by
  simp [treeStep, hhost, hrel.1, hrel.2]

theorem treeStep_result (M : JsMath α) (hash : α → α → α) (p : TreeProfile α)
    (x y z baseHeight : ℤ) (blocks : Blocks) (dx dz : ℤ) (r : Option ℕ)
    (h : treeStep M hash p x y z baseHeight (some blocks) dx dz = some r) :
    r = some blocks.bark ∨ r = some blocks.leaves := by
  unfold treeStep at h
  simp only [Option.map_some'] at h
  rcases hs : p.shape <;> simp only [hs] at h <;> split_ifs at h <;> first
    | (left; exact (Option.some.inj h).symm)
    | (right; exact (Option.some.inj h).symm)


theorem treeSeed_9955 : treeSeed (0.9955 : ℝ) = 1 / 2 := by
  have hfl : ⌊(0.9955 : ℝ) * 1000⌋ = 995 := by
    rw [Int.floor_eq_iff]; constructor <;> norm_num
  have hpos : (0 : ℝ) ≤ 0.9955 * 1000 := by norm_num
  simp only [treeSeed, jsMod1, hpos, if_true, hfl]
  norm_num

theorem treeSeed_995 : treeSeed (0.995 : ℝ) = 0 := by
  have hfl : ⌊(0.995 : ℝ) * 1000⌋ = 995 := by
    rw [Int.floor_eq_iff]; constructor <;> norm_num
  have hpos : (0 : ℝ) ≤ 0.995 * 1000 := by norm_num
  simp only [treeSeed, jsMod1, hpos, if_true, hfl]
  norm_num

theorem frozen_height_9955 :
    currentTreeHeight (config (some Biome.frozen)) (0.9955 : ℝ) = 4 := by
  simp only [currentTreeHeight, config, treeSeed_9955]
  rw [Int.floor_eq_iff]; constructor <;> norm_num

theorem frozen_height_995 :
    currentTreeHeight (config (some Biome.frozen)) (0.995 : ℝ) = 3 := by
  simp only [currentTreeHeight, config, treeSeed_995]
  rw [Int.floor_eq_iff]; constructor <;> norm_num

theorem crown_995 : currentCrownSize (0.995 : ℝ) = 2 := by
  simp only [currentCrownSize, treeSeed_995]
  rw [Int.floor_eq_iff]; constructor <;> norm_num

theorem loneHash_own : loneHash (((0 : ℤ) : ℝ)) (((0 : ℤ) : ℝ)) = 0.9955 := by
  simp [loneHash]

theorem overhangHash_own : overhangHash (((0 : ℤ) : ℝ)) (((0 : ℤ) : ℝ)) = 0.9955 := by
  simp [overhangHash]

theorem treeStep_loneHash_other (y baseHeight : ℤ) (blocks : Option Blocks)
    (biome : Option Biome) (dx dz : ℤ) (h : ¬ (dx = 0 ∧ dz = 0)) :
    treeStep realMath loneHash (config biome) 0 y 0 baseHeight blocks dx dz = none := by
  have hh : loneHash (((0 + dx : ℤ) : ℝ)) (((0 + dz : ℤ) : ℝ)) = 0 := by
    have : ¬ (((0 + dx : ℤ) : ℝ) = 0 ∧ ((0 + dz : ℤ) : ℝ) = 0) := by
      simpa using h
    simp only [loneHash, this, if_false]
  have hc : ¬ (0 : ℝ) > (config biome : TreeProfile ℝ).chance := by
    unfold config; split <;> norm_num
  simp only [treeStep, hh, hc, if_false]

/-- C10 as amended, trunk rule under first-match-wins: for `y > 3`, when the
voxel's own column hosts a tree and `0 ≤ y - baseHeight < treeHeight`, the
result of `getTreeVoxel` is the bark id or the leaves id (never air), for every
assignment of hash values; it is the bark id when no offset scanned before
`(0, 0)` (those with `dx < 0`, or `dx = 0` and `dz < 0`) returns from the loop. -/
theorem trunk_rule (M : JsMath α) (hash : α → α → α) (x y z baseHeight : ℤ)
    (blocks : Blocks) (biome : Option Biome) (hy : 3 < y)
    (hhost : hash (x : α) (z : α) > (config biome : TreeProfile α).chance)
    (hrel : 0 ≤ y - baseHeight ∧
      y - baseHeight < currentTreeHeight (config biome) (hash (x : α) (z : α))) :
    (getTreeVoxelWith M hash x y z baseHeight (some blocks) biome = some blocks.bark ∨
      getTreeVoxelWith M hash x y z baseHeight (some blocks) biome = some blocks.leaves) ∧
    ((∀ d ∈ scanOffsets, (d.1 < 0 ∨ (d.1 = 0 ∧ d.2 < 0)) →
        treeStep M hash (config biome) x y z baseHeight (some blocks) d.1 d.2 = none) →
      getTreeVoxelWith M hash x y z baseHeight (some blocks) biome = some blocks.bark) := by
  have hy3 : ¬ y ≤ 3 := by omega
  have hown := treeStep_own M hash (config biome) x y z baseHeight (some blocks) hhost hrel
  have hcond : (∀ d ∈ scanOffsets, (d.1 < 0 ∨ (d.1 = 0 ∧ d.2 < 0)) →
        treeStep M hash (config biome) x y z baseHeight (some blocks) d.1 d.2 = none) →
      getTreeVoxelWith M hash x y z baseHeight (some blocks) biome = some blocks.bark := by
    intro hearly
    simp only [getTreeVoxelWith, hy3, if_false]
    rw [scanOffsets_split_own,
      findSome_first _ _ _ (0, 0) (some blocks.bark) _ (by simpa using hown)]
    · rfl
    · intro e he
      obtain ⟨hmem, hlt⟩ := scanOffsets_before_own e he
      exact hearly e hmem hlt
  refine ⟨?_, hcond⟩
  simp only [getTreeVoxelWith, hy3, if_false]
  rw [scanOffsets_split_own, List.findSome?_append]
  cases hfind : (scanOffsets.take 24).findSome?
      (fun d => treeStep M hash (config biome) x y z baseHeight (some blocks) d.1 d.2) with
  | none =>
    left
    simp [List.findSome?_cons, hown]
  | some r =>
    obtain ⟨d, -, hd⟩ := List.exists_of_findSome?_eq_some hfind
    rcases treeStep_result M hash (config biome) x y z baseHeight blocks d.1 d.2 r hd with h | h
    · left; simp [h]
    · right; simp [h]

theorem trunk_rule_witness :
    (3 : ℤ) < 10 ∧
      loneHash (((0 : ℤ) : ℝ)) (((0 : ℤ) : ℝ))
        > (config (some Biome.frozen) : TreeProfile ℝ).chance ∧
      (0 ≤ (10 : ℤ) - 7 ∧ (10 : ℤ) - 7 <
        currentTreeHeight (config (some Biome.frozen))
          (loneHash (((0 : ℤ) : ℝ)) (((0 : ℤ) : ℝ)))) ∧
      getTreeVoxelWith realMath loneHash 0 10 0 7 (some ⟨11, 12, 13⟩)
        (some Biome.frozen) = some 12 := by
  have h1 : loneHash (((0 : ℤ) : ℝ)) (((0 : ℤ) : ℝ))
      > (config (some Biome.frozen) : TreeProfile ℝ).chance := by
    rw [loneHash_own]; simp only [config]; norm_num
  have h2 : 0 ≤ (10 : ℤ) - 7 ∧ (10 : ℤ) - 7 <
      currentTreeHeight (config (some Biome.frozen))
        (loneHash (((0 : ℤ) : ℝ)) (((0 : ℤ) : ℝ))) := by
    rw [loneHash_own, frozen_height_9955]; decide
  refine ⟨by decide, h1, h2, ?_⟩
  refine (trunk_rule realMath loneHash 0 10 0 7 ⟨11, 12, 13⟩ (some Biome.frozen)
    (by decide) h1 h2).2 ?_
  intro d _ hd
  exact treeStep_loneHash_other 10 7 _ _ d.1 d.2 (by omega)

theorem overhang_result :
    getTreeVoxelWith realMath overhangHash 0 10 0 7 (some ⟨11, 12, 13⟩)
      (some Biome.frozen) = some 13 := by
  have hsplit : scanOffsets = scanOffsets.take 16 ++ (-1, -1) :: scanOffsets.drop 17 := by
    decide
  have hbefore : ∀ d ∈ scanOffsets.take 16, d.1 < -1 ∨ (d.1 = -1 ∧ d.2 < -1) := by
    decide
  have hy3 : ¬ (10 : ℤ) ≤ 3 := by decide
  simp only [getTreeVoxelWith, hy3, if_false]
  rw [hsplit, findSome_first _ _ _ (-1, -1) (some 13)]
  · rfl
  · intro d hd
    have hlt := hbefore d hd
    have hh : overhangHash (((0 + d.1 : ℤ) : ℝ)) (((0 + d.2 : ℤ) : ℝ)) = 0 := by
      have n1 : ¬ (((0 + d.1 : ℤ) : ℝ) = -1 ∧ ((0 + d.2 : ℤ) : ℝ) = -1) := by
        rintro ⟨a, b⟩
        have a1 : d.1 = -1 := by exact_mod_cast (by simpa using a : (d.1 : ℝ) = -1)
        have b1 : d.2 = -1 := by exact_mod_cast (by simpa using b : (d.2 : ℝ) = -1)
        omega
      have n2 : ¬ (((0 + d.1 : ℤ) : ℝ) = 0 ∧ ((0 + d.2 : ℤ) : ℝ) = 0) := by
        rintro ⟨a, -⟩
        have a1 : d.1 = 0 := by exact_mod_cast (by simpa using a : (d.1 : ℝ) = 0)
        omega
      simp only [overhangHash, n1, n2, if_false]
    have hc : ¬ (0 : ℝ) > (config (some Biome.frozen) : TreeProfile ℝ).chance := by
      simp only [config]; norm_num
    simp only [treeStep, hh, hc, if_false]
  · have hh : overhangHash (((0 + -1 : ℤ) : ℝ)) (((0 + -1 : ℤ) : ℝ)) = 0.995 := by
      simp [overhangHash]
    have hc : (0.995 : ℝ) > (config (some Biome.frozen) : TreeProfile ℝ).chance := by
      simp only [config]; norm_num
    have hshape : (config (some Biome.frozen) : TreeProfile ℝ).shape = Shape.cube := rfl
    simp only [treeStep, hh, hc, if_true, frozen_height_995, crown_995, hshape]
    rfl

/-- C10 refuted as stated: with hash `0.9955` at the voxel's own column
`(0, 0)` (a tree of height 4) and hash `0.995` at the column at offset
`(-1, -1)` (a tree of height 3 and crown size 2), the voxel `(0, 10, 0)` over
base height 7 satisfies the trunk rule, yet `getTreeVoxel` returns the leaves
id 13: the cube crown of the neighbour is reached first in the scan. -/
theorem trunk_rule_counterexample :
    (3 : ℤ) < 10 ∧
      overhangHash (((0 : ℤ) : ℝ)) (((0 : ℤ) : ℝ))
        > (config (some Biome.frozen) : TreeProfile ℝ).chance ∧
      (0 ≤ (10 : ℤ) - 7 ∧ (10 : ℤ) - 7 <
        currentTreeHeight (config (some Biome.frozen))
          (overhangHash (((0 : ℤ) : ℝ)) (((0 : ℤ) : ℝ)))) ∧
      getTreeVoxelWith realMath overhangHash 0 10 0 7 (some ⟨11, 12, 13⟩)
        (some Biome.frozen) = some 13 ∧
      getTreeVoxelWith realMath overhangHash 0 10 0 7 (some ⟨11, 12, 13⟩)
        (some Biome.frozen) ≠ some (Blocks.bark ⟨11, 12, 13⟩) := by
  have hres : getTreeVoxelWith realMath overhangHash 0 10 0 7 (some ⟨11, 12, 13⟩)
      (some Biome.frozen) = some 13 := overhang_result
  have h1 : overhangHash (((0 : ℤ) : ℝ)) (((0 : ℤ) : ℝ))
      > (config (some Biome.frozen) : TreeProfile ℝ).chance := by
    rw [overhangHash_own]; simp only [config]; norm_num
  have h2 : 0 ≤ (10 : ℤ) - 7 ∧ (10 : ℤ) - 7 <
      currentTreeHeight (config (some Biome.frozen))
        (overhangHash (((0 : ℤ) : ℝ)) (((0 : ℤ) : ℝ))) := by
    rw [overhangHash_own, frozen_height_9955]; decide
  refine ⟨by decide, h1, h2, hres, ?_⟩
  rw [hres]; decide

end Trees

/-! ## The loop body in terms of the trunk and canopy rules -/

section TreeRules

variable {α : Type} [LinearOrderedField α] [FloorRing α]

open Classical in
theorem treeStep_eq_rules (M : JsMath α) (hash : α → α → α) (p : TreeProfile α)
    (x y z baseHeight : ℤ) (blocks : Option Blocks) (dx dz : ℤ) :
    treeStep M hash p x y z baseHeight blocks dx dz =
      if hostsTree hash p x z dx dz then
        if trunkRule hash p x y z baseHeight dx dz then some (blocks.map Blocks.bark)
        else if canopyRule M hash p x y z baseHeight dx dz then some (blocks.map Blocks.leaves)
        else none
      else none := by
  unfold treeStep hostsTree trunkRule canopyRule crownTest
  simp only [ge_iff_le, pow_two, Int.lt_add_one_iff, mul_comm (0.7 : α)]
  generalize hash ((x + dx : ℤ) : α) ((z + dz : ℤ) : α) = h
  generalize currentTreeHeight p h = th
  generalize currentCrownSize h = c
  generalize M.sqrt ((dx * dx + dz * dz : ℤ) : α) = dist
  generalize y - baseHeight = relY
  rcases hs : p.shape <;> simp only [hs] <;> split_ifs <;> first
    | rfl
    | (exfalso; tauto)

theorem jsMod1_range (a : α) (ha : 0 ≤ a) : 0 ≤ jsMod1 a ∧ jsMod1 a < 1 := by
  simp only [jsMod1, ha, if_true]
  constructor
  · linarith [Int.floor_le a]
  · linarith [Int.lt_floor_add_one a]

theorem treeSeed_range (nHash : α) (h : 0 ≤ nHash) :
    0 ≤ treeSeed nHash ∧ treeSeed nHash < 1 :=
  jsMod1_range (nHash * 1000) (by positivity)

theorem currentTreeHeight_range (p : TreeProfile α) (nHash : α) (h : 0 ≤ nHash)
    (hp : p.minH < p.maxH) :
    p.minH ≤ currentTreeHeight p nHash ∧ currentTreeHeight p nHash < p.maxH := by
  obtain ⟨h0, h1⟩ := treeSeed_range nHash h
  have hd : (0 : α) < (p.maxH : α) - (p.minH : α) := by
    have : (p.minH : α) < (p.maxH : α) := by exact_mod_cast hp
    linarith
  unfold currentTreeHeight
  constructor
  · rw [Int.le_floor]
    nlinarith
  · rw [Int.floor_lt]
    nlinarith

theorem currentCrownSize_range (nHash : α) (h : 0 ≤ nHash) :
    currentCrownSize nHash = 2 ∨ currentCrownSize nHash = 3 := by
  obtain ⟨h0, h1⟩ := treeSeed_range nHash h
  have hlo : (2 : ℤ) ≤ currentCrownSize nHash := by
    unfold currentCrownSize; rw [Int.le_floor]; push_cast; linarith
  have hhi : currentCrownSize nHash < 4 := by
    unfold currentCrownSize; rw [Int.floor_lt]; push_cast; linarith
  omega

omit [FloorRing α] in
theorem config_heights (biome : Option Biome) :
    (config biome : TreeProfile α).minH < (config biome : TreeProfile α).maxH := by
  unfold config; split <;> norm_num

omit [FloorRing α] in
theorem config_chance_pos (biome : Option Biome) :
    (0 : α) < (config biome : TreeProfile α).chance := by
  unfold config; split <;> norm_num

theorem scanOffsets_bounds :
    ∀ d ∈ scanOffsets, (-3 ≤ d.1 ∧ d.1 ≤ 3) ∧ (-3 ≤ d.2 ∧ d.2 ≤ 3) := by
  decide

theorem treeStep_none_iff (M : JsMath α) (hash : α → α → α) (p : TreeProfile α)
    (x y z baseHeight : ℤ) (blocks : Blocks) (dx dz : ℤ) :
    treeStep M hash p x y z baseHeight (some blocks) dx dz = none ↔
      ¬ (hostsTree hash p x z dx dz ∧
        (trunkRule hash p x y z baseHeight dx dz ∨
          canopyRule M hash p x y z baseHeight dx dz)) := by
  rw [treeStep_eq_rules]
  split_ifs <;> simp_all

theorem treeStep_bark_of_trunk (M : JsMath α) (hash : α → α → α) (p : TreeProfile α)
    (x y z baseHeight : ℤ) (blocks : Blocks) (dx dz : ℤ)
    (hh : hostsTree hash p x z dx dz) (ht : trunkRule hash p x y z baseHeight dx dz) :
    treeStep M hash p x y z baseHeight (some blocks) dx dz = some (some blocks.bark) := by
  rw [treeStep_eq_rules]
  simp [hh, ht]

theorem treeStep_leaves_of_canopy (M : JsMath α) (hash : α → α → α) (p : TreeProfile α)
    (x y z baseHeight : ℤ) (blocks : Blocks) (dx dz : ℤ)
    (hh : hostsTree hash p x z dx dz) (ht : ¬ trunkRule hash p x y z baseHeight dx dz)
    (hc : canopyRule M hash p x y z baseHeight dx dz) :
    treeStep M hash p x y z baseHeight (some blocks) dx dz = some (some blocks.leaves) := by
  rw [treeStep_eq_rules]
  simp [hh, ht, hc]

theorem treeStep_leaves_inv (M : JsMath α) (hash : α → α → α) (p : TreeProfile α)
    (x y z baseHeight : ℤ) (blocks : Blocks) (dx dz : ℤ)
    (hne : blocks.bark ≠ blocks.leaves)
    (h : treeStep M hash p x y z baseHeight (some blocks) dx dz = some (some blocks.leaves)) :
    hostsTree hash p x z dx dz ∧ canopyRule M hash p x y z baseHeight dx dz := by
  rw [treeStep_eq_rules] at h
  split_ifs at h with h1 h2 h3
  · simp only [Option.map_some', Option.some.injEq] at h
    exact absurd h hne
  · exact ⟨h1, h3⟩

/-- The column hash computed without overflow lies in `[0, 1)`, for all
arguments and every sine. -/
theorem getHash_range (M : JsMath α) (nx nz : α) :
    0 ≤ getHash M nx nz ∧ getHash M nx nz < 1 :=
  jsMod1_range _ (abs_nonneg _)

/-- C17, tree size bounds: for a hash `h` in `[0, 1)` and every row of the
profile table (tropical 6..12, frozen 3..5, crystal 5..9, default 4..7) the
trunk height satisfies `minH ≤ treeHeight < maxH` and the crown size is 2 or 3. -/
theorem tree_size_bounds (biome : Option Biome) (h : α) (h0 : 0 ≤ h) (h1 : h < 1) :
    ((config biome : TreeProfile α).minH ≤ currentTreeHeight (config biome) h ∧
      currentTreeHeight (config biome) h < (config biome : TreeProfile α).maxH ∧
      currentTreeHeight (config biome) h ≤ (config biome : TreeProfile α).maxH) ∧
    (currentCrownSize h = 2 ∨ currentCrownSize h = 3) ∧
    (0 ≤ treeSeed h ∧ treeSeed h < 1) ∧
    ((config (some Biome.tropical) : TreeProfile α).minH = 6 ∧
      (config (some Biome.tropical) : TreeProfile α).maxH = 12 ∧
      (config (some Biome.frozen) : TreeProfile α).minH = 3 ∧
      (config (some Biome.frozen) : TreeProfile α).maxH = 5 ∧
      (config (some Biome.crystal) : TreeProfile α).minH = 5 ∧
      (config (some Biome.crystal) : TreeProfile α).maxH = 9 ∧
      (config none : TreeProfile α).minH = 4 ∧
      (config none : TreeProfile α).maxH = 7) := by
  have hh := currentTreeHeight_range (config biome) h h0 (config_heights biome)
  have _ := h1
  exact ⟨⟨hh.1, hh.2, le_of_lt hh.2⟩, currentCrownSize_range h h0, treeSeed_range h h0,
    rfl, rfl, rfl, rfl, rfl, rfl, rfl, rfl⟩

theorem tree_size_bounds_witness :
    (0 : ℝ) ≤ 0.9955 ∧ (0.9955 : ℝ) < 1 ∧
      (3 ≤ currentTreeHeight (config (some Biome.frozen)) (0.9955 : ℝ) ∧
        currentTreeHeight (config (some Biome.frozen)) (0.9955 : ℝ) < 5) ∧
      (currentCrownSize (0.9955 : ℝ) = 2 ∨ currentCrownSize (0.9955 : ℝ) = 3) :=
  have h := tree_size_bounds (some Biome.frozen) (0.9955 : ℝ) (by norm_num) (by norm_num)
  ⟨by norm_num, by norm_num, ⟨h.1.1, h.1.2.1⟩, h.2.1⟩

/-- C11, crown containment: with distinct bark and leaves ids and a non-zero
leaves id, `getTreeVoxel` returns the leaves id only if some offset `(dx, dz)`
of the 7x7 window hosts a tree (hash above `chance`) whose canopy rule holds
at the voxel: `relY` in `[treeHeight - 1, treeHeight + crownSize]` and the
shape test of the profile (cube, sphere or cone) at `localY`. -/
theorem crown_containment (M : JsMath α) (hash : α → α → α) (x y z baseHeight : ℤ)
    (blocks : Blocks) (biome : Option Biome)
    (hne : blocks.bark ≠ blocks.leaves) (h0 : blocks.leaves ≠ 0)
    (hres : getTreeVoxelWith M hash x y z baseHeight (some blocks) biome
      = some blocks.leaves) :
    ∃ dx dz : ℤ, (-3 ≤ dx ∧ dx ≤ 3) ∧ (-3 ≤ dz ∧ dz ≤ 3) ∧
      hostsTree hash (config biome) x z dx dz ∧
      canopyRule M hash (config biome) x y z baseHeight dx dz := by
  unfold getTreeVoxelWith at hres
  split_ifs at hres with hy
  · exact absurd (Option.some.inj hres).symm h0
  · cases hfind : scanOffsets.findSome?
        (fun d => treeStep M hash (config biome) x y z baseHeight (some blocks) d.1 d.2) with
    | none =>
      simp only [hfind, Option.getD_none] at hres
      exact absurd (Option.some.inj hres).symm h0
    | some r =>
      simp only [hfind, Option.getD_some] at hres
      obtain ⟨d, hd, hstep⟩ := List.exists_of_findSome?_eq_some hfind
      rw [hres] at hstep
      obtain ⟨hh, hc⟩ := treeStep_leaves_inv M hash (config biome) x y z baseHeight
        blocks d.1 d.2 hne hstep
      obtain ⟨hx, hz⟩ := scanOffsets_bounds d hd
      exact ⟨d.1, d.2, hx, hz, hh, hc⟩

theorem crown_containment_witness :
    (12 : ℕ) ≠ 13 ∧ (13 : ℕ) ≠ 0 ∧
      getTreeVoxelWith realMath overhangHash 0 10 0 7 (some ⟨11, 12, 13⟩)
        (some Biome.frozen) = some 13 ∧
      ∃ dx dz : ℤ, (-3 ≤ dx ∧ dx ≤ 3) ∧ (-3 ≤ dz ∧ dz ≤ 3) ∧
        hostsTree overhangHash (config (some Biome.frozen) : TreeProfile ℝ) 0 0 dx dz ∧
        canopyRule realMath overhangHash (config (some Biome.frozen)) 0 10 0 7 dx dz :=
  ⟨by decide, by decide, overhang_result,
    crown_containment realMath overhangHash 0 10 0 7 ⟨11, 12, 13⟩ (some Biome.frozen)
      (by decide) (by decide) overhang_result⟩

theorem scanOffsets_order :
    ∀ a : ℕ, a < 7 → ∀ b : ℕ, b < 7 →
      scanOffsets[7 * a + b]? = some ((a : ℤ) - 3, (b : ℤ) - 3) := by
  decide

/-- C18, first match wins: for `y > 3` and non-zero bark and leaves ids, the
result of `getTreeVoxel` is the block of the first offset in scan order
(`dx` outer, `dz` inner, each from -3 to 3) that hosts a tree and satisfies
the trunk or the canopy rule, bark when the trunk rule holds there and leaves
otherwise; and the result is 0 exactly when no offset of the window does. -/
theorem first_match_wins (M : JsMath α) (hash : α → α → α) (x y z baseHeight : ℤ)
    (blocks : Blocks) (biome : Option Biome) (hy : 3 < y)
    (hb : blocks.bark ≠ 0) (hl : blocks.leaves ≠ 0) :
    (∀ (n : ℕ) (hn : n < scanOffsets.length),
      (hostsTree hash (config biome) x z scanOffsets[n].1 scanOffsets[n].2 ∧
        (trunkRule hash (config biome) x y z baseHeight scanOffsets[n].1 scanOffsets[n].2 ∨
          canopyRule M hash (config biome) x y z baseHeight
            scanOffsets[n].1 scanOffsets[n].2)) →
      (∀ (m : ℕ) (hm : m < n),
        ¬ (hostsTree hash (config biome) x z scanOffsets[m].1 scanOffsets[m].2 ∧
          (trunkRule hash (config biome) x y z baseHeight
              scanOffsets[m].1 scanOffsets[m].2 ∨
            canopyRule M hash (config biome) x y z baseHeight
              scanOffsets[m].1 scanOffsets[m].2))) →
      (trunkRule hash (config biome) x y z baseHeight scanOffsets[n].1 scanOffsets[n].2 →
        getTreeVoxelWith M hash x y z baseHeight (some blocks) biome = some blocks.bark) ∧
      (¬ trunkRule hash (config biome) x y z baseHeight scanOffsets[n].1 scanOffsets[n].2 →
        getTreeVoxelWith M hash x y z baseHeight (some blocks) biome
          = some blocks.leaves)) ∧
    (getTreeVoxelWith M hash x y z baseHeight (some blocks) biome = some 0 ↔
      ∀ d ∈ scanOffsets, ¬ (hostsTree hash (config biome) x z d.1 d.2 ∧
        (trunkRule hash (config biome) x y z baseHeight d.1 d.2 ∨
          canopyRule M hash (config biome) x y z baseHeight d.1 d.2))) ∧
    (∀ a : ℕ, a < 7 → ∀ b : ℕ, b < 7 →
      scanOffsets[7 * a + b]? = some ((a : ℤ) - 3, (b : ℤ) - 3)) := by
  have hy3 : ¬ y ≤ 3 := by omega
  refine ⟨?_, ?_, scanOffsets_order⟩
  · intro n hn hclaim hfirst
    have hsplit : scanOffsets = scanOffsets.take n ++ scanOffsets[n] :: scanOffsets.drop (n + 1) := by
      rw [List.getElem_cons_drop, List.take_append_drop]
    have hbefore : ∀ e ∈ scanOffsets.take n,
        treeStep M hash (config biome) x y z baseHeight (some blocks) e.1 e.2 = none := by
      intro e he
      obtain ⟨m, hm, rfl⟩ := List.mem_take_iff_getElem.mp he
      rw [treeStep_none_iff]
      have hmn : m < n := by
        have := hm; simp only [lt_min_iff] at this; exact this.1
      exact hfirst m hmn
    constructor
    · intro ht
      have hstep := treeStep_bark_of_trunk M hash (config biome) x y z baseHeight blocks
        scanOffsets[n].1 scanOffsets[n].2 hclaim.1 ht
      simp only [getTreeVoxelWith, hy3, if_false]
      rw [hsplit, findSome_first _ _ _ scanOffsets[n] (some blocks.bark) hbefore hstep]
      rfl
    · intro ht
      have hc : canopyRule M hash (config biome) x y z baseHeight
          scanOffsets[n].1 scanOffsets[n].2 := hclaim.2.resolve_left ht
      have hstep := treeStep_leaves_of_canopy M hash (config biome) x y z baseHeight blocks
        scanOffsets[n].1 scanOffsets[n].2 hclaim.1 ht hc
      simp only [getTreeVoxelWith, hy3, if_false]
      rw [hsplit, findSome_first _ _ _ scanOffsets[n] (some blocks.leaves) hbefore hstep]
      rfl
  · simp only [getTreeVoxelWith, hy3, if_false]
    constructor
    · intro hres d hd
      rw [← treeStep_none_iff M hash (config biome) x y z baseHeight blocks]
      cases hfind : scanOffsets.findSome?
          (fun d => treeStep M hash (config biome) x y z baseHeight (some blocks) d.1 d.2) with
      | none => exact List.findSome?_eq_none_iff.mp hfind d hd
      | some r =>
        exfalso
        simp only [hfind, Option.getD_some] at hres
        obtain ⟨e, -, he⟩ := List.exists_of_findSome?_eq_some hfind
        rcases treeStep_result M hash (config biome) x y z baseHeight blocks e.1 e.2 r he
          with h | h
        · rw [h] at hres; exact hb (Option.some.inj hres)
        · rw [h] at hres; exact hl (Option.some.inj hres)
    · intro hall
      have : scanOffsets.findSome?
          (fun d => treeStep M hash (config biome) x y z baseHeight (some blocks) d.1 d.2)
          = none := by
        rw [List.findSome?_eq_none_iff]
        intro d hd
        rw [treeStep_none_iff]
        exact hall d hd
      rw [this]; rfl

theorem first_match_wins_witness :
    (3 : ℤ) < 10 ∧ (12 : ℕ) ≠ 0 ∧ (13 : ℕ) ≠ 0 ∧
      (getTreeVoxelWith realMath loneHash 0 10 0 7 (some ⟨11, 12, 13⟩) (some Biome.frozen)
          = some 0 ↔
        ∀ d ∈ scanOffsets,
          ¬ (hostsTree loneHash (config (some Biome.frozen) : TreeProfile ℝ) 0 0 d.1 d.2 ∧
            (trunkRule loneHash (config (some Biome.frozen) : TreeProfile ℝ) 0 10 0 7 d.1 d.2 ∨
              canopyRule realMath loneHash (config (some Biome.frozen)) 0 10 0 7 d.1 d.2))) :=
  ⟨by decide, by decide, by decide,
    (first_match_wins realMath loneHash 0 10 0 7 ⟨11, 12, 13⟩ (some Biome.frozen)
      (by decide) (by decide) (by decide)).2.1⟩

end TreeRules

/-! ## The column hash with overflow -/

section HashOverflow

variable {α : Type} [LinearOrderedField α] [FloorRing α]

omit [FloorRing α] in
theorem ofExact_of_abs_lt (a : α) (h : |a| < overflowBound) :
    JsNum.ofExact a = JsNum.finite a := by
  obtain ⟨h1, h2⟩ := abs_lt.mp h
  have n1 : ¬ overflowBound ≤ a := not_le.mpr h2
  have n2 : ¬ a ≤ -overflowBound := not_le.mpr h1
  simp only [JsNum.ofExact, n1, n2, if_false]

omit [FloorRing α] in
theorem scale_lt_overflowBound : (43758.5453 : α) < overflowBound := by
  unfold overflowBound; norm_num

theorem getHashNum_finite (M : JsMath α) (hM : M.Bounded) (nx nz : α)
    (h1 : |nx * 12.9898| < overflowBound) (h2 : |nz * 78.233| < overflowBound)
    (h3 : |nx * 12.9898 + nz * 78.233| < overflowBound) :
    getHashNum M (JsNum.finite nx) (JsNum.finite nz) = JsNum.finite (getHash M nx nz) := by
  have h4 : |M.sin (nx * 12.9898 + nz * 78.233) * 43758.5453| < overflowBound := by
    have hs := (hM (nx * 12.9898 + nz * 78.233)).1
    have : |M.sin (nx * 12.9898 + nz * 78.233) * 43758.5453| ≤ 43758.5453 := by
      rw [abs_le]
      constructor <;> nlinarith [hs.1, hs.2]
    exact lt_of_le_of_lt this scale_lt_overflowBound
  simp only [getHashNum, JsNum.mul, JsNum.add, JsNum.sin, JsNum.abs, JsNum.mod1, getHash,
    ofExact_of_abs_lt _ h1, ofExact_of_abs_lt _ h2, ofExact_of_abs_lt _ h3,
    ofExact_of_abs_lt _ h4]

/-- C12 as amended: with sine in `[-1, 1]`, for all finite arguments `nx`, `nz`
for which `nx * 12.9898`, `nz * 78.233` and their sum stay below the overflow
bound in magnitude, `getHash(nx, nz)` is a finite number `h` with
`0 ≤ h < 1`, the fractional part computed without overflow. -/
theorem getHash_range_no_overflow (M : JsMath α) (hM : M.Bounded) (nx nz : α)
    (h1 : |nx * 12.9898| < overflowBound) (h2 : |nz * 78.233| < overflowBound)
    (h3 : |nx * 12.9898 + nz * 78.233| < overflowBound) :
    getHashNum M (JsNum.finite nx) (JsNum.finite nz) = JsNum.finite (getHash M nx nz) ∧
      (getHashNum M (JsNum.finite nx) (JsNum.finite nz)).InUnitInterval ∧
      (0 ≤ getHash M nx nz ∧ getHash M nx nz < 1) := by
  have h := getHashNum_finite M hM nx nz h1 h2 h3
  refine ⟨h, ?_, getHash_range M nx nz⟩
  rw [h]
  exact getHash_range M nx nz

theorem getHash_range_no_overflow_witness :
    realMath.Bounded ∧ |(-157 : ℝ) * 12.9898| < overflowBound ∧
      |(314 : ℝ) * 78.233| < overflowBound ∧
      |(-157 : ℝ) * 12.9898 + 314 * 78.233| < overflowBound ∧
      (getHashNum realMath (JsNum.finite (-157)) (JsNum.finite 314)).InUnitInterval := by
  have h1 : |(-157 : ℝ) * 12.9898| < overflowBound := by
    unfold overflowBound; rw [abs_lt]; constructor <;> norm_num
  have h2 : |(314 : ℝ) * 78.233| < overflowBound := by
    unfold overflowBound; rw [abs_lt]; constructor <;> norm_num
  have h3 : |(-157 : ℝ) * 12.9898 + 314 * 78.233| < overflowBound := by
    unfold overflowBound; rw [abs_lt]; constructor <;> norm_num
  exact ⟨realMath_bounded, h1, h2, h3,
    (getHash_range_no_overflow realMath realMath_bounded (-157) 314 h1 h2 h3).2.1⟩

/-- C12 refuted as stated: for the integer-valued argument `nx = 1e308` the
product `nx * 12.9898` overflows to `Infinity`, `Math.sin(Infinity)` is `NaN`,
and `getHash(1e308, 0)` is `NaN`, for which `0 ≤ h < 1` is false. -/
theorem getHash_overflow_counterexample :
    getHashNum realMath (JsNum.finite 1e308) (JsNum.finite 0) = JsNum.nan ∧
      ¬ (getHashNum realMath (JsNum.finite 1e308) (JsNum.finite 0)).InUnitInterval := by
  have h1 : (overflowBound : ℝ) ≤ 1e308 * 12.9898 := by
    unfold overflowBound; norm_num
  have h2 : ¬ (overflowBound : ℝ) ≤ 0 * 78.233 := by
    unfold overflowBound; norm_num
  have h3 : ¬ (0 * 78.233 : ℝ) ≤ -overflowBound := by
    unfold overflowBound; norm_num
  have h : getHashNum realMath (JsNum.finite 1e308) (JsNum.finite 0) = JsNum.nan := by
    simp only [getHashNum, JsNum.mul, JsNum.ofExact, h1, h2, h3, if_true, if_false,
      JsNum.add, JsNum.sin, JsNum.abs, JsNum.mod1]
  refine ⟨h, ?_⟩
  rw [h]
  exact fun hf => hf

end HashOverflow

/-! ## Palette distinctness and base height bounds -/

section PaletteBounds

variable {α : Type} [LinearOrderedField α] [FloorRing α]

theorem biomeBlocks_three (a b c : Biome) (hab : a ≠ b) (hac : a ≠ c) (hbc : b ≠ c)
    (t : Biome) :
    (startSession [a, b, c]).biomeBlocks t =
      if t = c then some ⟨21, 22, 23⟩
      else if t = b then some ⟨11, 12, 13⟩
      else if t = a then some ⟨1, 2, 3⟩
      else none := by
  have _ := hab
  have _ := hac
  have _ := hbc
  simp [startSession, registerBiomes, registerBlock]

/-- C13, palette distinctness: in the session built at startup from 3 distinct
biomes, the biome at position `index` gets ground `index*10+1`, bark
`index*10+2` and leaves `index*10+3`, dirt is 999 and water is 1000; the three
ids of a biome are distinct, none of them is 0, the dirt id or the water id,
and two different biomes share no id. -/
theorem palette_distinct (selectedBiomes : List Biome) (hlen : selectedBiomes.length = 3)
    (hnd : selectedBiomes.Nodup) :
    (∀ (index : ℕ) (hi : index < selectedBiomes.length),
      (startSession selectedBiomes).biomeBlocks selectedBiomes[index] =
        some ⟨index * 10 + 1, index * 10 + 2, index * 10 + 3⟩) ∧
    (startSession selectedBiomes).dirtID = 999 ∧
    (startSession selectedBiomes).waterBlock = 1000 ∧
    (∀ (b : Biome) (k : Blocks), (startSession selectedBiomes).biomeBlocks b = some k →
      (k.ground ≠ k.bark ∧ k.ground ≠ k.leaves ∧ k.bark ≠ k.leaves) ∧
      (k.ground ≠ 0 ∧ k.bark ≠ 0 ∧ k.leaves ≠ 0) ∧
      (k.ground ≠ 999 ∧ k.bark ≠ 999 ∧ k.leaves ≠ 999) ∧
      (k.ground ≠ 1000 ∧ k.bark ≠ 1000 ∧ k.leaves ≠ 1000)) ∧
    (∀ (b₁ b₂ : Biome) (k₁ k₂ : Blocks), b₁ ≠ b₂ →
      (startSession selectedBiomes).biomeBlocks b₁ = some k₁ →
      (startSession selectedBiomes).biomeBlocks b₂ = some k₂ →
      (k₁.ground ≠ k₂.ground ∧ k₁.ground ≠ k₂.bark ∧ k₁.ground ≠ k₂.leaves) ∧
      (k₁.bark ≠ k₂.ground ∧ k₁.bark ≠ k₂.bark ∧ k₁.bark ≠ k₂.leaves) ∧
      (k₁.leaves ≠ k₂.ground ∧ k₁.leaves ≠ k₂.bark ∧ k₁.leaves ≠ k₂.leaves)) := by
  match selectedBiomes, hlen, hnd with
  | [a, b, c], _, hnd =>
    have hab : a ≠ b := by intro h; simp [h] at hnd
    have hac : a ≠ c := by intro h; simp [h] at hnd
    have hbc : b ≠ c := by intro h; simp [h] at hnd
    have hbl := biomeBlocks_three a b c hab hac hbc
    refine ⟨?_, rfl, rfl, ?_, ?_⟩
    · intro index hi
      have hi3 : index < 3 := by simpa using hi
      rw [hbl]
      interval_cases index
      · simp [hab, hac]
      · simp [hbc]
      · simp
    · intro t k hk
      rw [hbl] at hk
      split_ifs at hk <;> first
        | (cases hk; decide)
    · intro b₁ b₂ k₁ k₂ hne h₁ h₂
      rw [hbl] at h₁ h₂
      split_ifs at h₁ h₂ <;> first
        | (cases h₁; cases h₂; decide)
        | (exfalso; apply hne; simp_all)

theorem palette_distinct_witness :
    exampleBiomes.length = 3 ∧ exampleBiomes.Nodup ∧
      (startSession exampleBiomes).biomeBlocks Biome.frozen = some ⟨11, 12, 13⟩ :=
  ⟨rfl, by decide,
    (palette_distinct exampleBiomes rfl (by decide)).1 1 (by decide)⟩

theorem baseHeight_le (M : JsMath α) (hM : M.Bounded) (biome : Option Biome) (x z : ℤ) :
    baseHeight M biome x z ≤ 13 := by
  have hs := fun t => (hM t).1
  have hc := fun t => (hM t).2
  unfold baseHeight
  split
  · have : ⌊M.sin ((x : α) * 0.05) * 4 + M.cos ((z : α) * 0.05) * 4⌋ < 9 := by
      rw [Int.floor_lt]; push_cast
      linarith [(hs ((x : α) * 0.05)).2, (hc ((z : α) * 0.05)).2]
    omega
  · have : ⌊M.sin ((x : α) * 0.1) * 5⌋ < 6 := by
      rw [Int.floor_lt]; push_cast
      linarith [(hs ((x : α) * 0.1)).2]
    omega
  · have : ⌊M.sin ((x : α) * 0.06) * 8⌋ < 9 := by
      rw [Int.floor_lt]; push_cast
      linarith [(hs ((x : α) * 0.06)).2]
    omega
  · omega
  · have : ⌊M.sin ((x : α) * 0.05) * 2 + M.cos ((z : α) * 0.05) * 2⌋ < 5 := by
      rw [Int.floor_lt]; push_cast
      linarith [(hs ((x : α) * 0.05)).2, (hc ((z : α) * 0.05)).2]
    omega

/-- C19, base height bounds: with sine and cosine in `[-1, 1]`, for every
biome value (also `undefined`) and all `x`, `z` the base height lies in
`[-3, 13]` and is exactly 7 for frozen; so `baseHeight - 1 > -15`, and
`getVoxelID` without the `y < -15` test returns the same result on every
input. -/
theorem baseHeight_bounds (M : JsMath α) (hM : M.Bounded) :
    (∀ (biome : Option Biome) (x z : ℤ),
      -3 ≤ baseHeight M biome x z ∧ baseHeight M biome x z ≤ 13 ∧
      baseHeight M biome x z - 1 > -15) ∧
    (∀ x z : ℤ, baseHeight M (some Biome.frozen) x z = 7) ∧
    (∀ (hash : α → α → α) (s : Session) (x y z : ℤ),
      getVoxelIDWith M hash s x y z = getVoxelIDNoFloor M hash s x y z) := by
  refine ⟨?_, ?_, ?_⟩
  · intro biome x z
    have h1 := baseHeight_ge M hM biome x z
    have h2 := baseHeight_le M hM biome x z
    exact ⟨h1, h2, by omega⟩
  · intro x z
    rfl
  · intro hash s x y z
    have h1 := baseHeight_ge M hM (chooseBiome M s.selectedBiomes x z) x z
    unfold getVoxelIDWith getVoxelIDNoFloor
    by_cases hy : y < -15
    · have h2 : y < baseHeight M (chooseBiome M s.selectedBiomes x z) x z := by omega
      have h3 : ¬ y ≥ baseHeight M (chooseBiome M s.selectedBiomes x z) x z - 1 := by omega
      simp only [hy, h2, h3, if_true, if_false]
    · simp only [hy, if_false]

theorem baseHeight_bounds_witness :
    realMath.Bounded ∧ baseHeight realMath (some Biome.frozen) 0 0 = 7 ∧
      (-3 ≤ baseHeight realMath none (-157) 314 ∧ baseHeight realMath none (-157) 314 ≤ 13) :=
  have h := baseHeight_bounds realMath realMath_bounded
  ⟨realMath_bounded, h.2.1 0 0, (h.1 none (-157) 314).1, (h.1 none (-157) 314).2.1⟩

end PaletteBounds

/-! ## The scan radius -/

section Radius

variable {α : Type} [LinearOrderedField α] [FloorRing α]

theorem findSome_flatMap {β γ δ : Type} (l : List β) (g : β → List γ) (f : γ → Option δ) :
    (l.flatMap g).findSome? f = l.findSome? fun a => (g a).findSome? f := by
  induction l with
  | nil => rfl
  | cons a rest ih =>
    rw [List.flatMap_cons, List.findSome?_append, ih, List.findSome?_cons]
    cases (g a).findSome? f <;> rfl

theorem findSome_centered {β : Type} (f : ℤ → Option β)
    (hf : ∀ v : ℤ, (v < -3 ∨ 3 < v) → f v = none) (k : ℕ) :
    ((List.range (2 * (k + 3) + 1)).findSome?
        fun (i : ℕ) => f ((i : ℤ) - ((k + 3 : ℕ) : ℤ))) =
      (List.range 7).findSome? fun (i : ℕ) => f ((i : ℤ) - 3) := by
  have h1 : List.range' k 7 ++ List.range' (k + 7) k = List.range' k (k + 7) :=
    List.range'_append_1 k 7 k
  have h2 : List.range' 0 k ++ List.range' k (k + 7) = List.range' 0 (k + 7 + k) := by
    simpa using List.range'_append_1 0 k (k + 7)
  have hsplit : List.range (2 * (k + 3) + 1)
      = List.range' 0 k ++ (List.range' k 7 ++ List.range' (k + 7) k) := by
    rw [List.range_eq_range', h1, h2]
    congr 1
    omega
  have hlow : (List.range' 0 k).findSome?
      (fun (i : ℕ) => f ((i : ℤ) - ((k + 3 : ℕ) : ℤ))) = none := by
    rw [List.findSome?_eq_none_iff]
    intro i hi
    rw [List.mem_range'_1] at hi
    apply hf
    left
    push_cast
    omega
  have hhigh : (List.range' (k + 7) k).findSome?
      (fun (i : ℕ) => f ((i : ℤ) - ((k + 3 : ℕ) : ℤ))) = none := by
    rw [List.findSome?_eq_none_iff]
    intro i hi
    rw [List.mem_range'_1] at hi
    apply hf
    right
    push_cast
    omega
  have hmid : (List.range' k 7).findSome?
      (fun (i : ℕ) => f ((i : ℤ) - ((k + 3 : ℕ) : ℤ)))
      = (List.range 7).findSome? fun (i : ℕ) => f ((i : ℤ) - 3) := by
    rw [List.range'_eq_map_range, List.findSome?_map]
    congr 1
    funext i
    simp only [Function.comp]
    congr 1
    push_cast
    ring
  rw [hsplit, List.findSome?_append, List.findSome?_append, hlow, hhigh, hmid]
  cases (List.range 7).findSome? (fun (i : ℕ) => f ((i : ℤ) - 3)) <;> rfl

theorem findSome_scanOffsetsR {β : Type} (F : ℤ × ℤ → Option β)
    (hF : ∀ d : ℤ × ℤ, ¬ (|d.1| ≤ 3 ∧ |d.2| ≤ 3) → F d = none) (radius : ℕ)
    (hR : 3 ≤ radius) :
    (scanOffsetsR radius).findSome? F = scanOffsets.findSome? F := by
  obtain ⟨k, rfl⟩ : ∃ k, radius = k + 3 := ⟨radius - 3, by omega⟩
  have hout : ∀ v w : ℤ, (v < -3 ∨ 3 < v) → F (v, w) = none := by
    intro v w hv
    apply hF
    intro h
    have := abs_le.mp h.1
    omega
  have hin : ∀ v w : ℤ, (w < -3 ∨ 3 < w) → F (v, w) = none := by
    intro v w hw
    apply hF
    intro h
    have := abs_le.mp h.2
    omega
  unfold scanOffsetsR scanOffsets
  rw [findSome_flatMap, findSome_flatMap]
  simp only [List.findSome?_map, Function.comp_def]
  refine (findSome_centered
    (fun v => (List.range (2 * (k + 3) + 1)).findSome?
      fun (j : ℕ) => F (v, (j : ℤ) - ((k + 3 : ℕ) : ℤ))) ?_ k).trans ?_
  · intro v hv
    rw [List.findSome?_eq_none_iff]
    intro j _
    exact hout v _ hv
  · congr 1
    funext i
    exact findSome_centered (fun w => F ((i : ℤ) - 3, w)) (fun w hw => hin _ w hw) k

theorem realMath_sqrtLower : realMath.SqrtLower := by
  intro k n hk hkn
  apply Real.le_sqrt_of_sq_le
  have : ((k * k : ℤ) : ℝ) ≤ (n : ℝ) := by exact_mod_cast hkn
  push_cast at this
  nlinarith

omit [FloorRing α] in
theorem window_of_sqrt_lt (M : JsMath α) (hsq : M.SqrtLower) (dx dz : ℤ)
    (h : M.sqrt ((dx ^ 2 + dz ^ 2 : ℤ) : α) < 4) : |dx| ≤ 3 ∧ |dz| ≤ 3 := by
  by_contra hcon
  have hbig : (4 : ℤ) * 4 ≤ dx ^ 2 + dz ^ 2 := by
    have hx := sq_abs dx
    have hz := sq_abs dz
    have hx0 := abs_nonneg dx
    have hz0 := abs_nonneg dz
    by_cases h1 : |dx| ≤ 3
    · have h2 : 4 ≤ |dz| := by
        by_contra h3
        exact hcon ⟨h1, by omega⟩
      nlinarith
    · have h2 : 4 ≤ |dx| := by omega
      nlinarith
  have := hsq 4 (dx ^ 2 + dz ^ 2) (by norm_num) hbig
  push_cast at this h
  linarith

omit [FloorRing α] in
theorem crownTest_window (M : JsMath α) (hsq : M.SqrtLower) (shape : Shape)
    (crownSize dx dz localY : ℤ) (hc : crownSize = 2 ∨ crownSize = 3)
    (hl : 0 ≤ localY ∧ localY ≤ crownSize + 1)
    (ht : crownTest M shape crownSize dx dz localY) : |dx| ≤ 3 ∧ |dz| ≤ 3 := by
  have hc2 : (2 : α) ≤ (crownSize : α) := by
    have : (2 : ℤ) ≤ crownSize := by omega
    exact_mod_cast this
  have hc3 : (crownSize : α) ≤ 3 := by
    have : crownSize ≤ 3 := by omega
    exact_mod_cast this
  have hl0 : (0 : α) ≤ (localY : α) := by exact_mod_cast hl.1
  cases shape with
  | cube => exact ⟨by have := ht.1; omega, by have := ht.2; omega⟩
  | sphere =>
    apply window_of_sqrt_lt M hsq
    have h1 : M.sqrt ((dx ^ 2 + dz ^ 2 : ℤ) : α) + |(localY : α) - (crownSize : α) / 2|
        ≤ 0.7 * (crownSize : α) := ht
    have h2 := abs_nonneg ((localY : α) - (crownSize : α) / 2)
    have h3 : (0.7 : α) * (crownSize : α) ≤ 0.7 * 3 :=
      mul_le_mul_of_nonneg_left hc3 (by norm_num)
    have h4 : (0.7 : α) * 3 < 4 := by norm_num
    linarith
  | cone =>
    apply window_of_sqrt_lt M hsq
    have h1 : M.sqrt ((dx ^ 2 + dz ^ 2 : ℤ) : α)
        ≤ (crownSize : α) * (1 - (localY : α) / ((crownSize : α) + 2)) := ht
    have h2 : (0 : α) ≤ (localY : α) / ((crownSize : α) + 2) :=
      div_nonneg hl0 (by linarith)
    have h3 : (crownSize : α) * (1 - (localY : α) / ((crownSize : α) + 2)) ≤ (crownSize : α) := by
      nlinarith
    linarith

theorem treeStep_outside_window (M : JsMath α) (hsq : M.SqrtLower) (hash : α → α → α)
    (biome : Option Biome) (x y z baseHeight : ℤ) (blocks : Option Blocks) (dx dz : ℤ)
    (hout : ¬ (|dx| ≤ 3 ∧ |dz| ≤ 3)) :
    treeStep M hash (config biome) x y z baseHeight blocks dx dz = none := by
  rw [treeStep_eq_rules]
  split_ifs with hh ht hc
  · exfalso
    apply hout
    rw [ht.1, ht.2.1]
    decide
  · exfalso
    apply hout
    have hpos : (0 : α) ≤ hash ((x + dx : ℤ) : α) ((z + dz : ℤ) : α) := by
      have h1 := config_chance_pos (α := α) biome
      have h2 : hash ((x + dx : ℤ) : α) ((z + dz : ℤ) : α)
          > (config biome : TreeProfile α).chance := hh
      linarith
    obtain ⟨hlo, hhi, htest⟩ := hc
    exact crownTest_window M hsq _ _ dx dz _ (currentCrownSize_range _ hpos)
      ⟨by omega, by omega⟩ htest
  · rfl
  · rfl

/-- C20, the radius-3 window never truncates a canopy: with a square root
that is at least `k` on integers `n ≥ k * k`, for every crown shape, every
crown size 2 or 3, every `localY` in `[0, crownSize + 1]` and all integer
offsets, the shape test implies `|dx| ≤ 3` and `|dz| ≤ 3`; and `getTreeVoxel`
with any scan radius `R ≥ 3` returns the same result as with radius 3 on
every input. -/
theorem radius_three_suffices (M : JsMath α) (hsq : M.SqrtLower) :
    (∀ (shape : Shape) (crownSize dx dz localY : ℤ),
      (crownSize = 2 ∨ crownSize = 3) → (0 ≤ localY ∧ localY ≤ crownSize + 1) →
      crownTest M shape crownSize dx dz localY → |dx| ≤ 3 ∧ |dz| ≤ 3) ∧
    (∀ (radius : ℕ), 3 ≤ radius →
      ∀ (hash : α → α → α) (x y z baseHeight : ℤ) (blocks : Option Blocks)
        (biome : Option Biome),
        getTreeVoxelRadius radius M hash x y z baseHeight blocks biome
          = getTreeVoxelWith M hash x y z baseHeight blocks biome) := by
  refine ⟨fun shape c dx dz localY hc hl ht =>
    crownTest_window M hsq shape c dx dz localY hc hl ht, ?_⟩
  intro radius hR hash x y z baseHeight blocks biome
  unfold getTreeVoxelRadius getTreeVoxelWith
  split_ifs with hy
  · rfl
  · simp only []
    rw [findSome_scanOffsetsR _ _ radius hR]
    intro d hd
    exact treeStep_outside_window M hsq hash biome x y z baseHeight blocks d.1 d.2 hd

theorem radius_three_suffices_witness :
    realMath.SqrtLower ∧
      getTreeVoxelRadius 5 realMath overhangHash 0 10 0 7 (some ⟨11, 12, 13⟩)
        (some Biome.frozen) = some 13 :=
  ⟨realMath_sqrtLower,
    ((radius_three_suffices realMath realMath_sqrtLower).2 5 (by decide) overhangHash
      0 10 0 7 (some ⟨11, 12, 13⟩) (some Biome.frozen)).trans overhang_result⟩

end Radius

/-! ## Chunk generation -/

section Chunks

variable {α : Type} [LinearOrderedField α] [FloorRing α]

theorem mem_loopIndices (n t : ℤ) : t ∈ loopIndices n ↔ 0 ≤ t ∧ t < n := by
  unfold loopIndices
  simp only [List.mem_map, List.mem_range]
  constructor
  · rintro ⟨i, hi, rfl⟩
    exact ⟨Int.natCast_nonneg i, Int.lt_toNat.mp hi⟩
  · rintro ⟨h0, h1⟩
    refine ⟨t.toNat, ?_, Int.toNat_of_nonneg h0⟩
    rw [Int.lt_toNat, Int.toNat_of_nonneg h0]
    exact h1

theorem foldlM_write (l : List ℤ) (step : ChunkData → ℤ → Option ChunkData)
    (P : ℤ → ℤ → ℤ → ℤ → Prop) (val : ℤ → ℤ → ℤ → ℕ)
    (hstep : ∀ t ∈ l, ∀ d, ∃ d', step d t = some d' ∧ d'.shape = d.shape ∧
      (∀ a b c, P t a b c → d'.cells a b c = val a b c) ∧
      (∀ a b c, ¬ P t a b c → d'.cells a b c = d.cells a b c)) :
    ∀ d, ∃ d', l.foldlM step d = some d' ∧ d'.shape = d.shape ∧
      (∀ a b c, (∃ t ∈ l, P t a b c) → d'.cells a b c = val a b c) ∧
      (∀ a b c, (¬ ∃ t ∈ l, P t a b c) → d'.cells a b c = d.cells a b c) := by
  induction l with
  | nil =>
    intro d
    refine ⟨d, rfl, rfl, ?_, fun _ _ _ _ => rfl⟩
    rintro a b c ⟨t, ht, -⟩
    cases ht
  | cons t rest ih =>
    intro d
    obtain ⟨d₁, h₁, hs₁, hw₁, hk₁⟩ := hstep t (List.mem_cons_self t rest) d
    obtain ⟨d₂, h₂, hs₂, hw₂, hk₂⟩ :=
      ih (fun u hu => hstep u (List.mem_cons_of_mem t hu)) d₁
    refine ⟨d₂, ?_, hs₂.trans hs₁, ?_, ?_⟩
    · rw [List.foldlM_cons, h₁]
      exact h₂
    · rintro a b c ⟨u, hu, hP⟩
      by_cases hr : ∃ u ∈ rest, P u a b c
      · exact hw₂ a b c hr
      · rw [hk₂ a b c hr]
        rcases List.mem_cons.mp hu with rfl | hu'
        · exact hw₁ a b c hP
        · exact absurd ⟨u, hu', hP⟩ hr
    · intro a b c hn
      have hr : ¬ ∃ u ∈ rest, P u a b c := by
        rintro ⟨u, hu, hP⟩
        exact hn ⟨u, List.mem_cons_of_mem t hu, hP⟩
      have ht : ¬ P t a b c := fun hP => hn ⟨t, List.mem_cons_self t rest, hP⟩
      rw [hk₂ a b c hr, hk₁ a b c ht]

theorem foldlM_throws {β : Type} (l : List ℤ) (step : β → ℤ → Option β) (t : ℤ)
    (ht : t ∈ l) (hthrow : ∀ d, step d t = none) : ∀ d, l.foldlM step d = none := by
  induction l with
  | nil => cases ht
  | cons u rest ih =>
    intro d
    rw [List.foldlM_cons]
    rcases List.mem_cons.mp ht with rfl | ht'
    · rw [hthrow d]; rfl
    · cases step d u with
      | none => rfl
      | some d' => exact ih ht' d'

theorem foldlM_skip {β : Type} (l : List ℤ) (step : β → ℤ → Option β)
    (hid : ∀ t ∈ l, ∀ d, step d t = some d) : ∀ d, l.foldlM step d = some d := by
  induction l with
  | nil => intro d; rfl
  | cons u rest ih =>
    intro d
    rw [List.foldlM_cons, hid u (List.mem_cons_self u rest) d]
    exact ih (fun t ht => hid t (List.mem_cons_of_mem u ht)) d

/-- The handler on a chunk all of whose voxels `getVoxelID` returns a value
for: it completes, every cell of the index range holds the voxel id of its
absolute coordinate, every other cell and the shape are unchanged. -/
theorem chunk_fill_of_defined (M : JsMath α) (s : Session) (data : ChunkData) (x y z : ℤ)
    (hdef : ∀ i j k : ℤ, (0 ≤ i ∧ i < data.shape.1) → (0 ≤ j ∧ j < data.shape.2.1) →
      (0 ≤ k ∧ k < data.shape.2.2) → getVoxelID M s (x + i) (y + j) (z + k) ≠ none) :
    ∃ d', worldDataNeeded M s data x y z = some d' ∧ d'.shape = data.shape ∧
      (∀ i j k : ℤ, (0 ≤ i ∧ i < data.shape.1) → (0 ≤ j ∧ j < data.shape.2.1) →
        (0 ≤ k ∧ k < data.shape.2.2) →
        getVoxelID M s (x + i) (y + j) (z + k) = some (d'.cells i j k)) ∧
      (∀ i j k : ℤ, ¬ ((0 ≤ i ∧ i < data.shape.1) ∧ (0 ≤ j ∧ j < data.shape.2.1) ∧
        (0 ≤ k ∧ k < data.shape.2.2)) → d'.cells i j k = data.cells i j k) := by
  let val : ℤ → ℤ → ℤ → ℕ := fun a b c => (getVoxelID M s (x + a) (y + b) (z + c)).getD 0
  have hval : ∀ i j k : ℤ, (0 ≤ i ∧ i < data.shape.1) → (0 ≤ j ∧ j < data.shape.2.1) →
      (0 ≤ k ∧ k < data.shape.2.2) →
      getVoxelID M s (x + i) (y + j) (z + k) = some (val i j k) := by
    intro i j k hi hj hk
    have := hdef i j k hi hj hk
    cases hg : getVoxelID M s (x + i) (y + j) (z + k) with
    | none => exact absurd hg this
    | some v => simp [val, hg]
  have hout := foldlM_write (loopIndices data.shape.1)
    (fun d i => (loopIndices data.shape.2.1).foldlM (fun d j =>
      (loopIndices data.shape.2.2).foldlM (fun d k =>
        (getVoxelID M s (x + i) (y + j) (z + k)).map fun v => d.set i j k v) d) d)
    (fun i a b c => a = i ∧ b ∈ loopIndices data.shape.2.1 ∧ c ∈ loopIndices data.shape.2.2)
    val ?_ data
  · obtain ⟨d', h, hs, hw, hk⟩ := hout
    refine ⟨d', h, hs, ?_, ?_⟩
    · intro i j k hi hj hk'
      rw [hval i j k hi hj hk']
      congr 1
      symm
      apply hw
      exact ⟨i, (mem_loopIndices _ _).mpr hi, rfl, (mem_loopIndices _ _).mpr hj,
        (mem_loopIndices _ _).mpr hk'⟩
    · intro i j k hn
      apply hk
      rintro ⟨t, ht, rfl, hj, hk'⟩
      exact hn ⟨(mem_loopIndices _ _).mp ht, (mem_loopIndices _ _).mp hj,
        (mem_loopIndices _ _).mp hk'⟩
  · intro i hi d
    have hmid := foldlM_write (loopIndices data.shape.2.1)
      (fun d j => (loopIndices data.shape.2.2).foldlM (fun d k =>
        (getVoxelID M s (x + i) (y + j) (z + k)).map fun v => d.set i j k v) d)
      (fun j a b c => a = i ∧ b = j ∧ c ∈ loopIndices data.shape.2.2) val ?_ d
    · obtain ⟨d', h, hs, hw, hk⟩ := hmid
      refine ⟨d', h, hs, ?_, ?_⟩
      · rintro a b c ⟨ha, hb, hc⟩
        exact hw a b c ⟨b, hb, ha, rfl, hc⟩
      · intro a b c hn
        apply hk
        rintro ⟨t, ht, ha, rfl, hc⟩
        exact hn ⟨ha, ht, hc⟩
    · intro j hj d
      have hin := foldlM_write (loopIndices data.shape.2.2)
        (fun d k => (getVoxelID M s (x + i) (y + j) (z + k)).map fun v => d.set i j k v)
        (fun k a b c => a = i ∧ b = j ∧ c = k) val ?_ d
      · obtain ⟨d', h, hs, hw, hk⟩ := hin
        refine ⟨d', h, hs, ?_, ?_⟩
        · rintro a b c ⟨ha, hb, hc⟩
          exact hw a b c ⟨c, hc, ha, hb, rfl⟩
        · intro a b c hn
          apply hk
          rintro ⟨t, ht, ha, hb, rfl⟩
          exact hn ⟨ha, hb, ht⟩
      · intro k hk d
        refine ⟨d.set i j k (val i j k), ?_, rfl, ?_, ?_⟩
        · show (getVoxelID M s (x + i) (y + j) (z + k)).map (fun v => d.set i j k v) = _
          rw [hval i j k ((mem_loopIndices _ _).mp hi) ((mem_loopIndices _ _).mp hj)
            ((mem_loopIndices _ _).mp hk)]
          rfl
        · rintro a b c ⟨rfl, rfl, rfl⟩
          simp [ChunkData.set]
        · intro a b c hn
          simp [ChunkData.set, hn]

/-- The handler on a chunk that contains a voxel on which `getVoxelID`
throws: the handler throws. -/
theorem chunk_fill_throws_of_voxel (M : JsMath α) (s : Session) (data : ChunkData)
    (x y z i j k : ℤ) (hi : 0 ≤ i ∧ i < data.shape.1) (hj : 0 ≤ j ∧ j < data.shape.2.1)
    (hk : 0 ≤ k ∧ k < data.shape.2.2)
    (hthrow : getVoxelID M s (x + i) (y + j) (z + k) = none) :
    worldDataNeeded M s data x y z = none := by
  unfold worldDataNeeded
  apply foldlM_throws _ _ i ((mem_loopIndices _ _).mpr hi)
  intro d
  apply foldlM_throws _ _ j ((mem_loopIndices _ _).mpr hj)
  intro d
  apply foldlM_throws _ _ k ((mem_loopIndices _ _).mpr hk)
  intro d
  rw [hthrow]
  rfl

theorem chunk_fill_inv (M : JsMath α) (s : Session) (data d' : ChunkData) (x y z : ℤ)
    (h : worldDataNeeded M s data x y z = some d') (i j k : ℤ)
    (hi : 0 ≤ i ∧ i < data.shape.1) (hj : 0 ≤ j ∧ j < data.shape.2.1)
    (hk : 0 ≤ k ∧ k < data.shape.2.2) :
    getVoxelID M s (x + i) (y + j) (z + k) = some (d'.cells i j k) := by
  by_cases hdef : ∀ i j k : ℤ, (0 ≤ i ∧ i < data.shape.1) → (0 ≤ j ∧ j < data.shape.2.1) →
      (0 ≤ k ∧ k < data.shape.2.2) → getVoxelID M s (x + i) (y + j) (z + k) ≠ none
  · obtain ⟨d'', h'', -, hw, -⟩ := chunk_fill_of_defined M s data x y z hdef
    rw [h] at h''
    cases h''
    exact hw i j k hi hj hk
  · push_neg at hdef
    obtain ⟨a, b, c, ha, hb, hc, hthrow⟩ := hdef
    rw [chunk_fill_throws_of_voxel M s data x y z a b c ha hb hc hthrow] at h
    cases h

theorem getVoxelID_negative_column :
    getVoxelID realMath (startSession exampleBiomes) (-157) 0 314 = none := by
  have hc : chooseBiome realMath (startSession exampleBiomes).selectedBiomes (-157) 314
      = none := chooseBiome_negative_column
  simp only [getVoxelID, getVoxelIDWith, hc, baseHeight_negative_column]
  rfl

/-- C14: the chunk request with origin (-160, 0, 288) and shape (32, 32, 32)
contains the voxel (-157, 0, 314), at local offset (3, 0, 26), on which
`getVoxelID` throws; the handler throws instead of filling the buffer. -/
theorem chunk_fill_throws :
    getVoxelID realMath (startSession exampleBiomes) (-160 + 3) (0 + 0) (288 + 26) = none ∧
      worldDataNeeded realMath (startSession exampleBiomes)
        ⟨(32, 32, 32), fun _ _ _ => 0⟩ (-160) 0 288 = none :=
  ⟨getVoxelID_negative_column,
    chunk_fill_throws_of_voxel realMath (startSession exampleBiomes)
      ⟨(32, 32, 32), fun _ _ _ => 0⟩ (-160) 0 288 3 0 26 (by decide) (by decide) (by decide)
      getVoxelID_negative_column⟩

theorem loopIndices_nonpos (n : ℤ) (h : n ≤ 0) : loopIndices n = [] := by
  unfold loopIndices
  rw [Int.toNat_of_nonpos h]
  rfl

/-- C15 as amended: on a chunk request whose shape has a zero or negative
extent in some dimension the handler completes normally, writes no cell and
hands the unmodified buffer to `setChunkData`. -/
theorem degenerate_chunk_unmodified (M : JsMath α) (s : Session) (data : ChunkData)
    (x y z : ℤ)
    (h : data.shape.1 ≤ 0 ∨ data.shape.2.1 ≤ 0 ∨ data.shape.2.2 ≤ 0) :
    worldDataNeeded M s data x y z = some data := by
  unfold worldDataNeeded
  rcases h with h | h | h
  · rw [loopIndices_nonpos _ h]
    rfl
  · apply foldlM_skip
    intro i _ d
    rw [loopIndices_nonpos _ h]
    rfl
  · apply foldlM_skip
    intro i _ d
    apply foldlM_skip
    intro j _ d
    rw [loopIndices_nonpos _ h]
    rfl

theorem degenerate_chunk_unmodified_witness :
    ((32 : ℤ) ≤ 0 ∨ (-1 : ℤ) ≤ 0 ∨ (32 : ℤ) ≤ 0) ∧
      worldDataNeeded realMath (startSession exampleBiomes)
        ⟨(32, -1, 32), fun _ _ _ => 7⟩ 0 0 0 = some ⟨(32, -1, 32), fun _ _ _ => 7⟩ :=
  ⟨by decide,
    degenerate_chunk_unmodified realMath (startSession exampleBiomes)
      ⟨(32, -1, 32), fun _ _ _ => 7⟩ 0 0 0 (by decide)⟩

/-- C15 refuted as stated: on the chunk request with shape (0, 32, 32) the
handler does not fail; it completes and hands over the buffer as it
received it. -/
theorem degenerate_chunk_counterexample :
    worldDataNeeded realMath (startSession exampleBiomes)
        ⟨(0, 32, 32), fun _ _ _ => 7⟩ 0 0 0 = some ⟨(0, 32, 32), fun _ _ _ => 7⟩ ∧
      worldDataNeeded realMath (startSession exampleBiomes)
        ⟨(0, 32, 32), fun _ _ _ => 7⟩ 0 0 0 ≠ none := by
  have h : worldDataNeeded realMath (startSession exampleBiomes)
      ⟨(0, 32, 32), fun _ _ _ => 7⟩ 0 0 0 = some ⟨(0, 32, 32), fun _ _ _ => 7⟩ := by
    unfold worldDataNeeded
    rw [loopIndices_nonpos _ (le_refl 0)]
    rfl
  exact ⟨h, by rw [h]; exact Option.some_ne_none _⟩

theorem treeStep_result_opt (M : JsMath α) (hash : α → α → α) (p : TreeProfile α)
    (x y z baseHeight : ℤ) (blocks : Option Blocks) (dx dz : ℤ) (r : Option ℕ)
    (h : treeStep M hash p x y z baseHeight blocks dx dz = some r) :
    r = blocks.map Blocks.bark ∨ r = blocks.map Blocks.leaves := by
  rw [treeStep_eq_rules] at h
  split_ifs at h
  · left; exact (Option.some.inj h).symm
  · right; exact (Option.some.inj h).symm

theorem getTreeVoxelWith_result (M : JsMath α) (hash : α → α → α) (x y z baseHeight : ℤ)
    (blocks : Option Blocks) (biome : Option Biome) (v : ℕ)
    (h : getTreeVoxelWith M hash x y z baseHeight blocks biome = some v) :
    v = 0 ∨ ∃ k, blocks = some k ∧ (v = k.bark ∨ v = k.leaves) := by
  unfold getTreeVoxelWith at h
  split_ifs at h with hy
  · left; exact (Option.some.inj h).symm
  · cases hfind : scanOffsets.findSome?
        (fun d => treeStep M hash (config biome) x y z baseHeight blocks d.1 d.2) with
    | none =>
      simp only [hfind, Option.getD_none] at h
      left; exact (Option.some.inj h).symm
    | some r =>
      simp only [hfind, Option.getD_some] at h
      obtain ⟨d, -, hd⟩ := List.exists_of_findSome?_eq_some hfind
      right
      rcases treeStep_result_opt M hash (config biome) x y z baseHeight blocks d.1 d.2 r hd
        with hr | hr
      · rw [hr] at h
        cases blocks with
        | none => cases h
        | some k => exact ⟨k, rfl, Or.inl (Option.some.inj h).symm⟩
      · rw [hr] at h
        cases blocks with
        | none => cases h
        | some k => exact ⟨k, rfl, Or.inr (Option.some.inj h).symm⟩

theorem column_palette (M : JsMath α) (s : Session) (x y z : ℤ) (v : ℕ)
    (h : getVoxelID M s x y z = some v) :
    v = s.dirtID ∨ v = s.waterBlock ∨ v = 0 ∨
      ∃ k, (chooseBiome M s.selectedBiomes x z).bind s.biomeBlocks = some k ∧
        (v = k.ground ∨ v = k.bark ∨ v = k.leaves) := by
  unfold getVoxelID getVoxelIDWith at h
  simp only [] at h
  split_ifs at h with h1 h2 h3 h4 h5
  · left; exact (Option.some.inj h).symm
  · right; right; right
    cases hb : (chooseBiome M s.selectedBiomes x z).bind s.biomeBlocks with
    | none => rw [hb] at h; cases h
    | some k =>
      rw [hb] at h
      exact ⟨k, rfl, Or.inl (Option.some.inj h).symm⟩
  · left; exact (Option.some.inj h).symm
  · right; left; exact (Option.some.inj h).symm
  · rcases getTreeVoxelWith_result M _ x y z _ _ _ v h with h0 | ⟨k, hk, hv⟩
    · right; right; left; exact h0
    · right; right; right
      exact ⟨k, hk, Or.inr hv⟩
  · right; right; left; exact (Option.some.inj h).symm

theorem handle_session (M : JsMath α) (w : World) (e : Event) :
    (handle M w e).session = w.session := by
  cases e with
  | worldDataNeeded id data x y z =>
    simp only [handle]
    split <;> rfl
  | fire position =>
    cases position <;> rfl
  | altFire adjacent =>
    cases adjacent with
    | none => rfl
    | some pos =>
      simp only [handle]
      split <;> rfl

theorem run_session (M : JsMath α) (w : World) (events : List Event) :
    (run M w events).session = w.session := by
  induction events generalizing w with
  | nil => rfl
  | cons e rest ih =>
    unfold run at ih ⊢
    rw [List.foldl_cons, ih, handle_session]

theorem chooseBiome_origin :
    chooseBiome realMath exampleBiomes 0 0 = some Biome.tropical := by
  have h0 : smoothNoise realMath 0 0 = 1 := by
    simp only [smoothNoise, realMath, Int.cast_zero, zero_mul, Real.sin_zero, Real.cos_zero]
    norm_num
  have hfl : ⌊smoothNoise realMath 0 0 * 3⌋ = 3 := by rw [h0]; norm_num
  simp only [chooseBiome, exampleBiomes, List.length_cons, List.length_nil]
  norm_num
  rw [hfl]
  rfl

theorem getVoxelID_flooded_column :
    getVoxelID realMath (startSession exampleBiomes) (-10) (-16) 0 = some 999 ∧
      getVoxelID realMath (startSession exampleBiomes) (-10) 3 0 = some 1000 ∧
      getVoxelID realMath (startSession exampleBiomes) (-10) 4 0 = some 0 := by
  have hc : chooseBiome realMath (startSession exampleBiomes).selectedBiomes (-10) 0
      = some Biome.crystal := chooseBiome_example_healthy
  have hb := baseHeight_example_healthy
  have hge := baseHeight_ge realMath realMath_bounded (some Biome.crystal) (-10) 0
  refine ⟨?_, ?_, ?_⟩
  · simp [getVoxelID, getVoxelIDWith]
    rfl
  · have h1 : ¬ (3 : ℤ) < baseHeight realMath (some Biome.crystal) (-10) 0 := by omega
    simp only [getVoxelID, getVoxelIDWith, hc, h1, if_false]
    rfl
  · have h1 : ¬ (4 : ℤ) < baseHeight realMath (some Biome.crystal) (-10) 0 := by omega
    have h2 : ¬ baseHeight realMath (some Biome.crystal) (-10) 0 > 3 := by omega
    simp only [getVoxelID, getVoxelIDWith, hc, h1, h2, if_false]
    rfl

/-- C16, determinism and column consistency: for a session fixed at startup
and any sequence of handler runs (`worldDataNeeded`, `fire`, `alt-fire`), a
call of `getVoxelID(x, y, z)` made at one moment of the run and a call made at
any later moment return the same result, and so do the two calls of
`chooseBiome(x, z)`; every id returned in column `(x, z)`, at whatever `y` and
whatever moment, is the dirt id, the water id, 0, or an id of the palette
entry of that one biome; two runs of the chunk handler on the same request
from different buffers fill every cell of the index range alike.  The result
is not constant: in the session `[tropical, frozen, crystal]` column
`(-10, 0)` holds dirt at `y = -16`, water at `y = 3` and air at `y = 4`, and
columns `(0, 0)` and `(-10, 0)` have different biomes. -/
theorem generation_deterministic (M : JsMath α) (w : World) (before between : List Event)
    (x z : ℤ) :
    (∀ y : ℤ, (run M w before).getVoxelID M x y z
      = (run M (run M w before) between).getVoxelID M x y z) ∧
    ((run M w before).chooseBiome M x z
      = (run M (run M w before) between).chooseBiome M x z) ∧
    (∀ (y : ℤ) (v : ℕ), (run M (run M w before) between).getVoxelID M x y z = some v →
      v = w.session.dirtID ∨ v = w.session.waterBlock ∨ v = 0 ∨
      ∃ k, ((run M w before).chooseBiome M x z).bind w.session.biomeBlocks = some k ∧
        (v = k.ground ∨ v = k.bark ∨ v = k.leaves)) ∧
    (∀ (data₁ data₂ d₁ d₂ : ChunkData) (y : ℤ), data₁.shape = data₂.shape →
      worldDataNeeded M (run M w before).session data₁ x y z = some d₁ →
      worldDataNeeded M (run M (run M w before) between).session data₂ x y z = some d₂ →
      ∀ i j k : ℤ, (0 ≤ i ∧ i < data₁.shape.1) → (0 ≤ j ∧ j < data₁.shape.2.1) →
        (0 ≤ k ∧ k < data₁.shape.2.2) → d₁.cells i j k = d₂.cells i j k) ∧
    (getVoxelID realMath (startSession exampleBiomes) (-10) (-16) 0 = some 999 ∧
      getVoxelID realMath (startSession exampleBiomes) (-10) 3 0 = some 1000 ∧
      getVoxelID realMath (startSession exampleBiomes) (-10) 4 0 = some 0 ∧
      chooseBiome realMath exampleBiomes 0 0 = some Biome.tropical ∧
      chooseBiome realMath exampleBiomes (-10) 0 = some Biome.crystal) := by
  have hs₁ : (run M w before).session = w.session := run_session M w before
  have hs₂ : (run M (run M w before) between).session = w.session := by
    rw [run_session, run_session]
  refine ⟨?_, ?_, ?_, ?_, ?_⟩
  · intro y
    simp only [World.getVoxelID, hs₁, hs₂]
  · simp only [World.chooseBiome, hs₁, hs₂]
  · intro y v h
    simp only [World.getVoxelID, World.chooseBiome, hs₁, hs₂] at h ⊢
    exact column_palette M w.session x y z v h
  · intro data₁ data₂ d₁ d₂ y hshape h₁ h₂ i j k hi hj hk
    rw [hs₁] at h₁
    rw [hs₂] at h₂
    have e₁ := chunk_fill_inv M w.session data₁ d₁ x y z h₁ i j k hi hj hk
    have e₂ := chunk_fill_inv M w.session data₂ d₂ x y z h₂ i j k
      (by rw [← hshape]; exact hi) (by rw [← hshape]; exact hj) (by rw [← hshape]; exact hk)
    rw [e₁] at e₂
    exact Option.some.inj e₂
  · exact ⟨getVoxelID_flooded_column.1, getVoxelID_flooded_column.2.1,
      getVoxelID_flooded_column.2.2, chooseBiome_origin, chooseBiome_example_healthy⟩

end Chunks

end Slimecraft
